import Mathlib

/-!
Courier back end: users, balances and items.

A shallow embedding of the three layers of the program:

* `Database` (database.cpp): the `user` and `item` tables, as lists of rows in
  insertion order, with the row-level operations of the class;
* `ItemManage` (item.cpp): the id counter `total` and the item operations;
* `UserManage` (user.cpp): the session map `userMap` and the request handlers.

Conventions of the embedding.

* C++ `int` values are integers; every arithmetic operation of the source is
  followed by `wrapInt`, the reduction to the signed 32-bit range.
* A handler returns `none` when the C++ program would stop (a null session
  pointer dereferenced, `qFatal`), and `some (state, reply)` otherwise.
* The SQL statements are executed against the lists of rows: primary keys reject a
  second row with the same key, and the statements themselves never fail for
  a reason outside the table contents. Where a property is about a statement
  that fails, the outcome of the statement is an argument (`deleteItemExec`).
* JSON objects are records of optional, well-typed fields.
-/

namespace Courier

/-! ## Constants -/

/-- User type of a customer (database.h:27). -/
def CUSTOMER : Int := 0
/-- User type of the administrator (database.h:28). -/
def ADMINISTRATOR : Int := 1
/-- Item state "received" (item.h:21). -/
def RECEIVED : Int := 1
/-- Item state "pending receiving", spelled as in the source (item.h:22). -/
def PENDING_REVEICING : Int := 2

/-- Reduction of an integer to the range of a C++ `int` (two's complement, 32 bit). -/
def wrapInt (n : Int) : Int := (n + 2147483648) % 4294967296 - 2147483648

/-- The values a C++ `int` can hold. -/
def IsInt32 (n : Int) : Prop := -2147483648 ≤ n ∧ n ≤ 2147483647

instance (n : Int) : Decidable (IsInt32 n) := by unfold IsInt32; infer_instance

/-- The item categories and their unit prices. user.cpp names the constants
`FRAGILE`, `BOOK`, `NORMAL`, `FRAGILE_ITEM_PRICE`, `BOOK_PRICE` and
`NORMAL_ITEM_PRICE`, which no source file declares; they are parameters of the
handlers that use them. -/
structure Config where
  FRAGILE : Int
  BOOK : Int
  NORMAL : Int
  FRAGILE_ITEM_PRICE : Int
  BOOK_PRICE : Int
  NORMAL_ITEM_PRICE : Int

/-- The labels of a C++ `switch` are pairwise different. -/
def Config.Distinct (cfg : Config) : Prop :=
  cfg.FRAGILE ≠ cfg.BOOK ∧ cfg.FRAGILE ≠ cfg.NORMAL ∧ cfg.BOOK ≠ cfg.NORMAL

instance (cfg : Config) : Decidable cfg.Distinct := by unfold Config.Distinct; infer_instance

/-! ## Data model -/

/-- A date, class `Time` of time.h restricted to its three public fields. -/
structure Time where
  year : Int
  month : Int
  day : Int
  deriving DecidableEq, Repr

/-- One reading of the clock. `Time::getCurYear`, `getCurMonth`, `getCurDay` and
`Time::isDue` belong to time.h, which is not among the sources; the handlers that
call them take the current date and the set of due sending dates as a parameter. -/
structure Clock where
  curYear : Int
  curMonth : Int
  curDay : Int
  isDue : Time → Bool

/-- The date `Time(getCurYear(), getCurMonth(), getCurDay())`. -/
def Clock.today (clk : Clock) : Time := ⟨clk.curYear, clk.curMonth, clk.curDay⟩

/-- A row of the `item` table, also class `Item` (item.h:30). -/
structure Item where
  id : Int
  cost : Int
  state : Int
  sendingTime : Time
  receivingTime : Time
  srcName : String
  dstName : String
  description : String
  deriving DecidableEq, Repr

/-- A row of the `user` table (database.cpp:44). -/
structure UserRow where
  username : String
  password : String
  type : Int
  balance : Int
  name : String
  phonenumber : String
  address : String
  deriving DecidableEq, Repr

/-- A session object, class `User` with `getUserType` of its subclass (user.h:35). -/
structure User where
  username : String
  password : String
  balance : Int
  type : Int
  name : String
  phoneNumber : String
  address : String
  deriving DecidableEq, Repr

/-- The method `User::addBalance` (user.h:104): `balance += addend`. -/
def User.addBalance (u : User) (addend : Int) : User :=
  { u with balance := wrapInt (u.balance + addend) }

/-- The two tables of the store. -/
structure Database where
  user : List UserRow
  item : List Item
  deriving DecidableEq, Repr

/-- The class `ItemManage`: the last id handed out. The database it points to is
passed to its operations. -/
structure ItemManage where
  total : Int
  deriving DecidableEq, Repr

/-- The class `UserManage`: session map, database and item manager. -/
structure UserManage where
  userMap : List (String × User)
  db : Database
  itemManage : ItemManage
  deriving DecidableEq, Repr

/-- A credential: the JSON object with the optional keys `username` and `iss`. -/
structure Token where
  username : Option String
  iss : Option String
  deriving DecidableEq, Repr

/-- The JSON object given to `sendItem`. -/
structure SendInfo where
  dstName : Option String
  type : Option Int
  amount : Option Int
  description : Option String
  deriving DecidableEq, Repr

/-- The JSON object given to `receiveItem`. -/
structure ReceiveInfo where
  id : Option Int
  deriving DecidableEq, Repr

/-- What `sendItem` returns: an error message, or `QString::number(cost)`. -/
inductive Reply where
  | message (text : String)
  | number (cost : Int)
  deriving DecidableEq, Repr

/-- The string the caller of `sendItem` receives. -/
def Reply.toQString : Reply → String
  | .message text => text
  | .number cost => toString cost

/-! ## QString operators used by transferBalance -/

/-- UTF-16 code units of a string, the representation of `QString`. -/
def utf16 (s : String) : List Nat :=
  s.toList.flatMap fun c =>
    if c.toNat < 65536 then [c.toNat]
    else [55296 + (c.toNat - 65536) / 1024, 56320 + (c.toNat - 65536) % 1024]

/-- The constructor `QChar(int rc)`: the code unit `rc & 0xffff`. -/
def qcharOfInt (rc : Int) : Nat := (rc % 65536).toNat

/-- The expression `s + n` for a `QString s` and an `int n`: the integer converts to a
`QChar`, which is appended. -/
def qstringPlusInt (s : String) (n : Int) : List Nat := utf16 s ++ [qcharOfInt n]

/-- The comparison `q >= QChar(c)`: code-unit order against the one-unit string. -/
def qstringGeChar (q : List Nat) (c : Nat) : Bool :=
  match q with
  | [] => false
  | x :: _ => decide (c ≤ x)

/-- The comparison `q < 0`: the literal `0` is a null `const char *`, and the
comparison helper returns the length of `q` for a null right-hand side. -/
def qstringLtNull (q : List Nat) : Bool := decide ((q.length : Int) < 0)

/-! ## Database (database.cpp) -/

/-- Database::queryUserByName, one argument (database.cpp:176): does a row exist. -/
def Database.queryUserByName (db : Database) (username : String) : Bool :=
  db.user.any fun r => decide (r.username = username)

/-- Database::queryUserByName, seven arguments (database.cpp:204): the first row
with that username, `none` when the function returns false. -/
def Database.queryUserRow (db : Database) (username : String) : Option UserRow :=
  db.user.find? fun r => decide (r.username = username)

/-- Database::queryBalanceByName (database.cpp:238); `none` is the `qFatal` branch. -/
def Database.queryBalanceByName (db : Database) (username : String) : Option Int :=
  (db.queryUserRow username).map UserRow.balance

/-- Database::insertUser (database.cpp:153): the insert is refused when the
primary key is taken. -/
def Database.insertUser (db : Database) (username password : String) (type balance : Int)
    (name phoneNumber address : String) : Database :=
  if db.queryUserByName username then db
  else { db with user := db.user ++ [⟨username, password, type, balance, name, phoneNumber, address⟩] }

/-- Database::modifyUserBalance (database.cpp:268), through modifyData:
`UPDATE user SET balance = :value WHERE username = :primaryKey`. -/
def Database.modifyUserBalance (db : Database) (username : String) (balance : Int) : Database :=
  { db with user := db.user.map fun r => if r.username = username then { r with balance := balance } else r }

/-- Database::modifyUserPassword (database.cpp:263). -/
def Database.modifyUserPassword (db : Database) (username password : String) : Database :=
  { db with user := db.user.map fun r => if r.username = username then { r with password := password } else r }

/-- Database::getDBMaxId for the item table (database.cpp:273): `MAX(id)`, and 0
for an empty table (the null result converts to 0). -/
def Database.getDBMaxId (db : Database) : Int :=
  match db.item with
  | [] => 0
  | it :: rest => rest.foldl (fun m x => max m x.id) it.id

/-- Database::insertItem (database.cpp:293): the insert is refused when the id is
taken. -/
def Database.insertItem (db : Database) (id cost state : Int) (sendingTime receivingTime : Time)
    (srcName dstName description : String) : Database :=
  if db.item.any (fun it => decide (it.id = id)) then db
  else { db with item := db.item ++ [⟨id, cost, state, sendingTime, receivingTime, srcName, dstName, description⟩] }

/-- A value bound to a placeholder or stored in a column. -/
inductive SqlValue where
  | int (n : Int)
  | text (s : String)
  deriving DecidableEq, Repr

/-- The columns of an item row by name (database.cpp:64). -/
def Item.column (it : Item) (col : String) : Option SqlValue :=
  if col = "id" then some (.int it.id)
  else if col = "cost" then some (.int it.cost)
  else if col = "state" then some (.int it.state)
  else if col = "sendingTime_Year" then some (.int it.sendingTime.year)
  else if col = "sendingTime_Month" then some (.int it.sendingTime.month)
  else if col = "sendingTime_Day" then some (.int it.sendingTime.day)
  else if col = "receivingTime_Year" then some (.int it.receivingTime.year)
  else if col = "receivingTime_Month" then some (.int it.receivingTime.month)
  else if col = "receivingTime_Day" then some (.int it.receivingTime.day)
  else if col = "srcName" then some (.text it.srcName)
  else if col = "dstName" then some (.text it.dstName)
  else if col = "description" then some (.text it.description)
  else none

/-- The conjuncts `column = placeholder` of the WHERE clause that
Database::queryItemByFilter builds (database.cpp:329-359). -/
def Database.filterWhere (id : Int) (sendingTime receivingTime : Time) (srcName dstName : String) :
    List (String × String) :=
  (if id ≠ -1 then [("id", ":id")] else []) ++
  (if sendingTime.day ≠ -1 ∨ sendingTime.month ≠ -1 ∨ sendingTime.day ≠ -1 then
    [("sendingTime_Year", ":sendingTime_Year"), ("sendingTime_Month", ":sendingTime_Month"),
     ("sendingTime_Day", ":sendingTime_Day")] else []) ++
  (if receivingTime.day ≠ -1 ∨ receivingTime.month ≠ -1 ∨ receivingTime.day ≠ -1 then
    [("receivingTime_Year", ":receivingTime_Year"), ("receivingTime_Month", ":receivingTime_Month"),
     ("receivingTime_Day", ":receivingTime_Day")] else []) ++
  (if srcName ≠ "" then [("srcName", ":srcName")] else []) ++
  (if dstName ≠ "" then [("dstName", ":dstName")] else [])

/-- The values Database::queryItemByFilter binds, by placeholder name
(database.cpp:362-379). -/
def Database.filterBinds (id : Int) (sendingTime receivingTime : Time) (srcName dstName : String) :
    List (String × SqlValue) :=
  (if id ≠ -1 then [(":id", SqlValue.int id)] else []) ++
  (if sendingTime.day ≠ -1 ∨ sendingTime.month ≠ -1 ∨ sendingTime.day ≠ -1 then
    [(":sendingTime_Year", SqlValue.int sendingTime.year), (":sendingTime_Month", SqlValue.int sendingTime.month),
     (":sendingTime_day", SqlValue.int sendingTime.day)] else []) ++
  (if receivingTime.day ≠ -1 ∨ receivingTime.month ≠ -1 ∨ receivingTime.day ≠ -1 then
    [(":receivingTime_Year", SqlValue.int receivingTime.year), (":receivingTime_Month", SqlValue.int receivingTime.month),
     (":receivingTime_day", SqlValue.int receivingTime.day)] else []) ++
  (if srcName ≠ "" then [(":srcName", SqlValue.text srcName)] else []) ++
  (if dstName ≠ "" then [(":dstName", SqlValue.text dstName)] else [])

/-- The value bound to a placeholder, if any. -/
def bindingOf : List (String × SqlValue) → String → Option SqlValue
  | [], _ => none
  | (k, v) :: rest, name => if k = name then some v else bindingOf rest name

/-- Does a row satisfy every conjunct. A placeholder without a bound value selects
no row: the statement is either refused for its parameter count or compares the
column with NULL. -/
def Item.satisfies (it : Item) (conds : List (String × String)) (binds : List (String × SqlValue)) : Bool :=
  conds.all fun c =>
    match bindingOf binds c.2, it.column c.1 with
    | some v, some w => decide (v = w)
    | _, _ => false

/-- Database::queryItemByFilter (database.cpp:326): the rows found, in table order;
the returned count is the length of the list. -/
def Database.queryItemByFilter (db : Database) (id : Int) (sendingTime receivingTime : Time)
    (srcName dstName : String) : List Item :=
  db.item.filter fun it =>
    it.satisfies (Database.filterWhere id sendingTime receivingTime srcName dstName)
      (Database.filterBinds id sendingTime receivingTime srcName dstName)

/-- Database::modifyItemState (database.cpp:400), through modifyData:
`UPDATE item SET state = :value WHERE id = :primaryKey`. -/
def Database.modifyItemState (db : Database) (id state : Int) : Database :=
  { db with item := db.item.map fun it => if it.id = id then { it with state := state } else it }

/-- One of the three updates of Database::modifyItemReceivingTime. -/
def Database.modifyItemReceivingYear (db : Database) (id value : Int) : Database :=
  { db with item := db.item.map fun it =>
      if it.id = id then { it with receivingTime := { it.receivingTime with year := value } } else it }

/-- One of the three updates of Database::modifyItemReceivingTime. -/
def Database.modifyItemReceivingMonth (db : Database) (id value : Int) : Database :=
  { db with item := db.item.map fun it =>
      if it.id = id then { it with receivingTime := { it.receivingTime with month := value } } else it }

/-- One of the three updates of Database::modifyItemReceivingTime. -/
def Database.modifyItemReceivingDay (db : Database) (id value : Int) : Database :=
  { db with item := db.item.map fun it =>
      if it.id = id then { it with receivingTime := { it.receivingTime with day := value } } else it }

/-- Database::modifyItemReceivingTime (database.cpp:405): year, month and day are
updated one after the other; the returned flag is always false (`flag3` is never
set) and is given next to the new database. -/
def Database.modifyItemReceivingTime (db : Database) (id : Int) (receivingTime : Time) : Database × Bool :=
  (((db.modifyItemReceivingYear id receivingTime.year).modifyItemReceivingMonth id
      receivingTime.month).modifyItemReceivingDay id receivingTime.day, false)

/-- Database::deleteItem (database.cpp:414): the row is removed; the function
returns false when the statement ran. -/
def Database.deleteItem (db : Database) (id : Int) : Database × Bool :=
  ({ db with item := db.item.filter fun it => decide (it.id ≠ id) }, false)

/-- Database::deleteItem (database.cpp:414) with the outcome of `sqlQuery.exec()`
given: when the statement fails the table is as it was and the function returns
true; when it runs, the row is removed and the function returns false. -/
def Database.deleteItemExec (db : Database) (id : Int) (execOk : Bool) : Database × Bool :=
  if !execOk then (db, true)
  else ({ db with item := db.item.filter fun it => decide (it.id ≠ id) }, false)

/-! ## ItemManage (item.cpp) -/

/-- The constructor ItemManage::ItemManage (item.cpp:15). -/
def ItemManage.new (db : Database) : ItemManage := ⟨db.getDBMaxId⟩

/-- ItemManage::insertItem (item.cpp:20): parameters in the order of the
definition, `cost, state, type, ...`. The call `db->insertItem(++total, cost, state,
type, ...)` hands `type` over as well; Database::insertItem (database.cpp:293) has
neither a parameter nor a column for it, so the row is built from the others. -/
def ItemManage.insertItem (im : ItemManage) (db : Database) (cost state _type : Int)
    (sendingTime receivingTime : Time) (srcName dstName description : String) :
    ItemManage × Database × Int :=
  let total := wrapInt (im.total + 1)
  (⟨total⟩, db.insertItem total cost state sendingTime receivingTime srcName dstName description, total)

/-- ItemManage::queryByFilter (item.cpp:41). -/
def ItemManage.queryByFilter (db : Database) (id : Int) (sendingTime receivingTime : Time)
    (srcName dstName : String) : List Item :=
  db.queryItemByFilter id sendingTime receivingTime srcName dstName

/-- ItemManage::queryAll (item.cpp:35). -/
def ItemManage.queryAll (db : Database) : List Item :=
  db.queryItemByFilter (-1) ⟨-1, -1, -1⟩ ⟨-1, -1, -1⟩ "" ""

/-- ItemManage::queryById (item.cpp:47): `temp[0]` when the count is not zero. -/
def ItemManage.queryById (db : Database) (id : Int) : Option Item :=
  match db.queryItemByFilter id ⟨-1, -1, -1⟩ ⟨-1, -1, -1⟩ "" "" with
  | [] => none
  | it :: _ => some it

/-- ItemManage::modifyState (item.cpp:59). -/
def ItemManage.modifyState (db : Database) (id state : Int) : Database :=
  db.modifyItemState id state

/-- ItemManage::modifyReceivingTime (item.cpp:64). -/
def ItemManage.modifyReceivingTime (db : Database) (id : Int) (receivingTime : Time) : Database × Bool :=
  db.modifyItemReceivingTime id receivingTime

/-- ItemManage::deleteItem (item.cpp:69). -/
def ItemManage.deleteItem (db : Database) (id : Int) : Database × Bool :=
  db.deleteItem id

/-! ## UserManage (user.cpp) -/

/-- The lookup `userMap.value(key, nullptr)`; `none` is the null pointer. -/
def userMapValue : List (String × User) → String → Option User
  | [], _ => none
  | (k, v) :: rest, key => if k = key then some v else userMapValue rest key

/-- The call `userMap[username]->addBalance(addend)` on the session object. -/
def userMapAddBalance (m : List (String × User)) (username : String) (addend : Int) :
    List (String × User) :=
  m.map fun p => if p.1 = username then (p.1, p.2.addBalance addend) else p

/-- UserManage::verify (user.cpp:15): the username, or the empty string. -/
def UserManage.verify (um : UserManage) (token : Token) : String :=
  match token.username with
  | none => ""
  | some username =>
    if (userMapValue um.userMap username).isNone then ""
    else
      match token.iss with
      | none => ""
      | some iss => if iss ≠ "Haolin Yang" then "" else username

/-- UserManage::addBalance (user.cpp:32). The branch `none` is `userMap[username]`
being null, which does not occur after a successful `verify`. -/
def UserManage.addBalance (um : UserManage) (token : Token) (addend : Int) :
    Option (UserManage × String) :=
  if addend > 1000000000 ∨ addend < -1000000000 then
    some (um, "单次余额改变量不能超过1000000000")
  else
    let username := um.verify token
    if username = "" then some (um, "验证失败")
    else
      match userMapValue um.userMap username with
      | none => none
      | some usr =>
        if wrapInt (usr.balance + addend) < 0 then some (um, "余额不能为负")
        else if wrapInt (usr.balance + addend) > 1000000000 then some (um, "余额上限为1000000000")
        else
          some ({ um with
                  db := um.db.modifyUserBalance username (wrapInt (usr.balance + addend))
                  userMap := userMapAddBalance um.userMap username addend }, "")

/-- UserManage::transferBalance (user.cpp:53). The two guards on the recipient
compare the string `dstUser + balance`, not `dstBalance + balance`. The first branch
`none` is the `qFatal` of queryBalanceByName. -/
def UserManage.transferBalance (um : UserManage) (token : Token) (balance : Int) (dstUser : String) :
    Option (UserManage × String) :=
  if balance ≥ 1000000000 ∨ balance ≤ -1000000000 then
    some (um, "单次余额改变量不能超过1000000000")
  else if !um.db.queryUserByName dstUser then
    some (um, "无法查到另一个用户" ++ dstUser)
  else
    match um.db.queryBalanceByName dstUser with
    | none => none
    | some dstBalance =>
      if qstringGeChar (qstringPlusInt dstUser balance) (qcharOfInt 1000000000) then
        some (um, "余额不能大于1000000000")
      else if qstringLtNull (qstringPlusInt dstUser balance) then
        some (um, "余额不能为负")
      else
        match um.addBalance token (wrapInt (-balance)) with
        | none => none
        | some (um1, ret) =>
          if ret ≠ "" then some (um1, ret)
          else
            some ({ um1 with db := um1.db.modifyUserBalance dstUser (wrapInt (dstBalance + balance)) }, "")

/-- UserManage::registerUser (user.cpp:148); `username.size()` counts UTF-16 code
units. -/
def UserManage.registerUser (um : UserManage) (username password : String) (type : Int)
    (name phoneNumber address : String) : UserManage × String :=
  if username = "" ∨ (utf16 username).length > 10 then (um, "用户名长度应该在1~10之间")
  else if um.db.queryUserByName username then (um, "该用户名已被注册")
  else if type = ADMINISTRATOR then (um, "管理员类不支持注册")
  else ({ um with db := um.db.insertUser username password type 0 name phoneNumber address }, "")

/-- The session object created by `login` from a row, of the class for `type`. -/
def User.ofRow (username : String) (r : UserRow) (type : Int) : User :=
  ⟨username, r.password, r.balance, type, r.name, r.phonenumber, r.address⟩

/-- The statement `if (!userMap[username]) userMap[username] = ...` of `login`. -/
def userMapEnsure (m : List (String × User)) (username : String) (usr : User) : List (String × User) :=
  match userMapValue m username with
  | some _ => m
  | none => m ++ [(username, usr)]

/-- UserManage::login (user.cpp:161): new state, returned message and the token
after the two inserts. -/
def UserManage.login (um : UserManage) (username password : String) (token : Token) :
    UserManage × String × Token :=
  match um.db.queryUserRow username with
  | none => (um, "用户名或密码错误", token)
  | some r =>
    if r.password = password then
      if r.type = CUSTOMER then
        ({ um with userMap := userMapEnsure um.userMap username (User.ofRow username r CUSTOMER) }, "",
          ⟨some username, some "Haolin Yang"⟩)
      else if r.type = ADMINISTRATOR then
        ({ um with userMap := userMapEnsure um.userMap username (User.ofRow username r ADMINISTRATOR) }, "",
          ⟨some username, some "Haolin Yang"⟩)
      else (um, "数据库中用户类型错误", token)
    else (um, "用户名或密码错误", token)

/-- UserManage::logout (user.cpp:193). -/
def UserManage.logout (um : UserManage) (token : Token) : UserManage × String :=
  let username := um.verify token
  if username = "" then (um, "验证失败")
  else ({ um with userMap := um.userMap.filter fun p => decide (p.1 ≠ username) }, "")

/-- The cost computed by the `switch` of sendItem (user.cpp:280-294); `none` is the
default branch. -/
def UserManage.sendCost (cfg : Config) (type amount : Int) : Option Int :=
  if type = cfg.FRAGILE then some (wrapInt (amount * cfg.FRAGILE_ITEM_PRICE))
  else if type = cfg.BOOK then some (wrapInt (amount * cfg.BOOK_PRICE))
  else if type = cfg.NORMAL then some (wrapInt (amount * cfg.NORMAL_ITEM_PRICE))
  else none

/-- UserManage::sendItem (user.cpp:256). The arguments of `insertItem` are in the
order of the call: `cost, info["type"], PENDING_REVEICING, ...`. The branches `none`
are a null `userMap[username]`, a recipient row that the second query does not
find (`retType` would be read uninitialised) and a stop inside transferBalance. -/
def UserManage.sendItem (cfg : Config) (clk : Clock) (um : UserManage) (token : Token) (info : SendInfo) :
    Option (UserManage × Reply) :=
  let username := um.verify token
  if username = "" then some (um, .message "验证失败")
  else
    match userMapValue um.userMap username with
    | none => none
    | some usr =>
      if usr.type ≠ CUSTOMER then some (um, .message "非用户不能发出快递")
      else
        match info.dstName, info.type, info.amount, info.description with
        | some dstName, some type, some amount, some description =>
          if !um.db.queryUserByName dstName then some (um, .message "收件用户不存在")
          else
            match um.db.queryUserRow dstName with
            | none => none
            | some dstRow =>
              if dstRow.type ≠ CUSTOMER then some (um, .message "你只能给用户寄出快递")
              else
                match UserManage.sendCost cfg type amount with
                | none => some (um, .message "快递类型有误")
                | some cost =>
                  match um.transferBalance token cost "ADMINISTRATOR" with
                  | none => none
                  | some (um1, ret) =>
                    if ret ≠ "" then some (um1, .message ret)
                    else
                      let r := um1.itemManage.insertItem um1.db cost type PENDING_REVEICING clk.today
                        ⟨-1, -1, -1⟩ username dstName description
                      some ({ um1 with itemManage := r.1, db := r.2.1 }, .number cost)
        | _, _, _, _ => some (um, .message "快递物品信息不全")

/-- UserManage::receiveItem (user.cpp:307). The two return values of the updates
are dropped, as in the source. -/
def UserManage.receiveItem (clk : Clock) (um : UserManage) (token : Token) (info : ReceiveInfo) :
    Option (UserManage × String) :=
  let username := um.verify token
  if username = "" then some (um, "验证失败")
  else
    match userMapValue um.userMap username with
    | none => none
    | some usr =>
      if usr.type ≠ CUSTOMER then some (um, "非用户不能接收快递")
      else
        match info.id with
        | none => some (um, "快递物品信息不全")
        | some id =>
          match ItemManage.queryById um.db id with
          | none => some (um, "不存在运单号为该ID的物品")
          | some result =>
            if result.dstName ≠ username then some (um, "这不是您的快递")
            else if !clk.isDue result.sendingTime then some (um, "该快递还未到达")
            else
              let db1 := ItemManage.modifyState um.db id RECEIVED
              let db2 := (ItemManage.modifyReceivingTime db1 id clk.today).1
              some ({ um with db := db2 }, "")

/-- The JSON object given to `queryItem` as filter (user.h:285-327). -/
structure Filter where
  type : Option Int
  id : Option Int
  sendingTime_Year : Option Int
  sendingTime_Month : Option Int
  sendingTime_Day : Option Int
  receivingTime_Year : Option Int
  receivingTime_Month : Option Int
  receivingTime_Day : Option Int
  srcName : Option String
  dstName : Option String
  deriving DecidableEq, Repr

/-- The sending date read from a filter: -1 for each part that is absent
(user.cpp:90-99). -/
def Filter.sendingTime (filter : Filter) : Time :=
  ⟨filter.sendingTime_Year.getD (-1), filter.sendingTime_Month.getD (-1), filter.sendingTime_Day.getD (-1)⟩

/-- The receiving date read from a filter (user.cpp:90, 100-105). -/
def Filter.receivingTime (filter : Filter) : Time :=
  ⟨filter.receivingTime_Year.getD (-1), filter.receivingTime_Month.getD (-1),
    filter.receivingTime_Day.getD (-1)⟩

/-- The test `filter["type"].toInt() == 0 && userMap[username]->getUserType() !=
ADMINISTRATOR` of queryItem (user.cpp:86); `none` when the session pointer that is
dereferenced is null. -/
def UserManage.queryDenied (um : UserManage) (username : String) (type : Int) : Option Bool :=
  if type = 0 then
    (userMapValue um.userMap username).map fun usr => decide (usr.type ≠ ADMINISTRATOR)
  else some false

/-- UserManage::queryItem (user.cpp:77): the returned message and the items appended
to `ret`, one JSON object per item in the source. The result of `verify` is used
without a test for the empty string. -/
def UserManage.queryItem (um : UserManage) (token : Token) (filter : Filter) :
    Option (String × List Item) :=
  match filter.type with
  | none => some ("缺少type键", [])
  | some type =>
    let username := um.verify token
    match um.queryDenied username type with
    | none => none
    | some true => some ("非管理员不能查看所有物品", [])
    | some false =>
      let id := filter.id.getD (-1)
      let srcName := filter.srcName.getD ""
      let dstName := filter.dstName.getD ""
      if type = 0 then
        some ("", ItemManage.queryByFilter um.db id filter.sendingTime filter.receivingTime srcName dstName)
      else if type = 1 then
        some ("", ItemManage.queryByFilter um.db id filter.sendingTime filter.receivingTime username dstName)
      else if type = 2 then
        some ("", ItemManage.queryByFilter um.db id filter.sendingTime filter.receivingTime srcName username)
      else some ("type键的值有误", [])

/-- UserManage::changePassword (user.cpp:203). -/
def UserManage.changePassword (um : UserManage) (token : Token) (newPassword : String) :
    UserManage × String :=
  let username := um.verify token
  if username = "" then (um, "验证失败")
  else ({ um with db := um.db.modifyUserPassword username newPassword }, "")

/-- The JSON object that describes a user (user.h:236-246). -/
structure UserInfo where
  username : String
  type : Int
  balance : Int
  name : String
  phonenumber : String
  address : String
  deriving DecidableEq, Repr

/-- UserManage::getUserInfo (user.cpp:213): the message and the object written to
`ret`, taken from the session object. -/
def UserManage.getUserInfo (um : UserManage) (token : Token) : Option (String × Option UserInfo) :=
  let username := um.verify token
  if username = "" then some ("验证失败", none)
  else
    match userMapValue um.userMap username with
    | none => none
    | some usr => some ("", some ⟨username, usr.type, usr.balance, usr.name, usr.phoneNumber, usr.address⟩)

/-- UserManage::queryAllUserInfo (user.cpp:228). The source walks the set of
usernames, which mirrors the user table, and reads every row by name; here the rows
are listed in table order. -/
def UserManage.queryAllUserInfo (um : UserManage) (token : Token) : Option (String × List UserInfo) :=
  let username := um.verify token
  if username = "" then some ("验证失败", [])
  else
    match userMapValue um.userMap username with
    | none => none
    | some usr =>
      if usr.type ≠ ADMINISTRATOR then some ("非管理员不能查看所有用户信息", [])
      else
        some ("", um.db.user.map fun r => ⟨r.username, r.type, r.balance, r.name, r.phonenumber, r.address⟩)

/-! ## Executions -/

/-- One call of a public handler of `UserManage`, with its arguments. -/
inductive Op where
  | registerUser (username password : String) (type : Int) (name phoneNumber address : String)
  | login (username password : String) (token : Token)
  | logout (token : Token)
  | changePassword (token : Token) (newPassword : String)
  | getUserInfo (token : Token)
  | queryAllUserInfo (token : Token)
  | addBalance (token : Token) (addend : Int)
  | queryItem (token : Token) (filter : Filter)
  | sendItem (clk : Clock) (token : Token) (info : SendInfo)
  | receiveItem (clk : Clock) (token : Token) (info : ReceiveInfo)

/-- The state after one call; `none` when the program stops in it. -/
def UserManage.step (cfg : Config) (um : UserManage) : Op → Option UserManage
  | .registerUser username password type name phoneNumber address =>
    some (um.registerUser username password type name phoneNumber address).1
  | .login username password token => some (um.login username password token).1
  | .logout token => some (um.logout token).1
  | .changePassword token newPassword => some (um.changePassword token newPassword).1
  | .getUserInfo token => (um.getUserInfo token).map fun _ => um
  | .queryAllUserInfo token => (um.queryAllUserInfo token).map fun _ => um
  | .addBalance token addend => (um.addBalance token addend).map Prod.fst
  | .queryItem token filter => (um.queryItem token filter).map fun _ => um
  | .sendItem clk token info => (UserManage.sendItem cfg clk um token info).map Prod.fst
  | .receiveItem clk token info => (um.receiveItem clk token info).map Prod.fst

/-- The call is a login of the given username that succeeds in the given state. -/
def Op.LogsIn (op : Op) (um : UserManage) (username : String) : Prop :=
  ∃ password token, op = .login username password token ∧ (um.login username password token).2.1 = ""

/-- Executions in which the given username does not log in: a sequence of handler
calls, none of them a successful login of that username. -/
inductive StepsWithoutLogin (cfg : Config) (username : String) : UserManage → UserManage → Prop where
  | refl (um : UserManage) : StepsWithoutLogin cfg username um um
  | tail {um um1 um2 : UserManage} (op : Op) :
      StepsWithoutLogin cfg username um um1 → um1.step cfg op = some um2 →
      ¬ op.LogsIn um1 username → StepsWithoutLogin cfg username um um2

/-- A sequence of handler calls, made from left to right; `none` when the program
stops in one of them. -/
def UserManage.run (cfg : Config) : List Op → UserManage → Option UserManage
  | [], um => some um
  | op :: rest, um => (um.step cfg op).bind (UserManage.run cfg rest)

/-- One call on the item store through `ItemManage`. -/
inductive ItemOp where
  | insertItem (cost state type : Int) (sendingTime receivingTime : Time)
      (srcName dstName description : String)
  | modifyState (id state : Int)
  | modifyReceivingTime (id : Int) (receivingTime : Time)
  | deleteItem (id : Int)
  deriving DecidableEq, Repr

/-- The item manager and the store after one call, with the id returned when the
call is an insertItem. -/
def ItemManage.apply (im : ItemManage) (db : Database) : ItemOp → ItemManage × Database × Option Int
  | .insertItem cost state type sendingTime receivingTime srcName dstName description =>
    let r := im.insertItem db cost state type sendingTime receivingTime srcName dstName description
    (r.1, r.2.1, some r.2.2)
  | .modifyState id state => (im, ItemManage.modifyState db id state, none)
  | .modifyReceivingTime id receivingTime => (im, (ItemManage.modifyReceivingTime db id receivingTime).1, none)
  | .deleteItem id => (im, (ItemManage.deleteItem db id).1, none)

/-- A sequence of calls on the item store: the final item manager and store, and
the ids returned by the insertItem calls, in order. -/
def ItemManage.run : List ItemOp → ItemManage → Database → ItemManage × Database × List Int
  | [], im, db => (im, db, [])
  | op :: rest, im, db =>
    let r := im.apply db op
    let s := ItemManage.run rest r.1 r.2.1
    (s.1, s.2.1, r.2.2.toList ++ s.2.2)

/-- The number of insertItem calls in a sequence. -/
def ItemOp.inserts (ops : List ItemOp) : Nat :=
  (ops.filter fun op => match op with
    | .insertItem _ _ _ _ _ _ _ _ => true
    | _ => false).length

/-- The effect of the four updates of a successful receiveItem on one row: a row
with the given id gets state RECEIVED and the given receiving date, any other row
is kept. -/
def markReceived (id : Int) (today : Time) (it : Item) : Item :=
  if it.id = id then { it with state := RECEIVED, receivingTime := today } else it

/-- The account ADMINISTRATOR of a store is not of type CUSTOMER. The constructor of
`Database` creates it with type ADMINISTRATOR, and no operation changes a type. -/
def Database.AdminTyped (db : Database) : Prop :=
  ∀ r ∈ db.user, r.username = "ADMINISTRATOR" → r.type ≠ CUSTOMER

/-- Coherence of the customer sessions with the store: a customer session is not
the account ADMINISTRATOR and its cached balance is the persisted one. -/
def UserManage.Coherent (um : UserManage) : Prop :=
  um.db.AdminTyped ∧
  ∀ u usr, userMapValue um.userMap u = some usr → usr.type = CUSTOMER →
    u ≠ "ADMINISTRATOR" ∧ um.db.queryBalanceByName u = some usr.balance

/-! ## Sample data

Used to evaluate the definitions on concrete inputs. -/

/-- Sample categories and unit prices. -/
def sampleConfig : Config := ⟨1, 2, 3, 8, 2, 5⟩

/-- Sample clock: 20 April 2022, an item being due three days after it was sent
(days counted on a 31-day, 12-month grid). -/
def sampleClock : Clock :=
  ⟨2022, 4, 20, fun t => decide (t.year * 372 + t.month * 31 + t.day + 3 ≤ 2022 * 372 + 4 * 31 + 20)⟩

/-- A later reading of the sample clock: 25 April 2022. -/
def laterClock : Clock :=
  ⟨2022, 4, 25, fun t => decide (t.year * 372 + t.month * 31 + t.day + 3 ≤ 2022 * 372 + 4 * 31 + 25)⟩

/-- The row the constructor of `Database` inserts for the administrator
(database.cpp:102), with a given balance. -/
def adminRow (balance : Int) : UserRow :=
  ⟨"ADMINISTRATOR", "123", ADMINISTRATOR, balance, "Administrator1", "88888888", "环宇物流大厦"⟩

/-- A customer row. -/
def customerRow (username password : String) (balance : Int) : UserRow :=
  ⟨username, password, CUSTOMER, balance, username, "10086", "Beijing"⟩

/-- A store with the administrator and two customers, no item. -/
def sampleStore (adminBalance aliceBalance : Int) : Database :=
  ⟨[adminRow adminBalance, customerRow "alice" "pw1" aliceBalance, customerRow "bob" "pw2" 0], []⟩

/-- A freshly started program over a store: nobody is logged in. -/
def UserManage.start (db : Database) : UserManage := ⟨[], db, ItemManage.new db⟩

/-- The credential `login` issues for a username. -/
def tokenOf (username : String) : Token := ⟨some username, some "Haolin Yang"⟩

/-- The sample store after alice has logged in. -/
def aliceLoggedIn (adminBalance aliceBalance : Int) : UserManage :=
  ((UserManage.start (sampleStore adminBalance aliceBalance)).login "alice" "pw1" ⟨none, none⟩).1

/-- An item sent by alice to bob on 10 April 2022. -/
def sampleItem (id state : Int) : Item :=
  ⟨id, 8, state, ⟨2022, 4, 10⟩, ⟨-1, -1, -1⟩, "alice", "bob", "box"⟩

/-- Bob logged in over a store that holds one item addressed to him. -/
def bobLoggedIn (id state : Int) : UserManage :=
  ((UserManage.start ⟨(sampleStore 8 92).user, [sampleItem id state]⟩).login "bob" "pw2" ⟨none, none⟩).1

/-- A request of alice: one fragile item for bob. -/
def sampleSend : SendInfo := ⟨some "bob", some sampleConfig.FRAGILE, some 1, some "box"⟩

/-- The state after alice, logged in over `sampleStore 8 100`, has sent `sampleSend`
on the day of `sampleClock`. -/
def aliceSent : UserManage :=
  ⟨[("alice", ⟨"alice", "pw1", 92, CUSTOMER, "alice", "10086", "Beijing"⟩)],
   ⟨[adminRow 16, customerRow "alice" "pw1" 92, customerRow "bob" "pw2" 0],
    [⟨1, 8, 1, ⟨2022, 4, 20⟩, ⟨-1, -1, -1⟩, "alice", "bob", "box"⟩]⟩,
   ⟨1⟩⟩

/-- The state after bob, logged in over the store with `sampleItem 1
PENDING_REVEICING`, has received item 1 on the given day. -/
def bobReceived (today : Time) : UserManage :=
  ⟨[("bob", ⟨"bob", "pw2", 0, CUSTOMER, "bob", "10086", "Beijing"⟩)],
   ⟨(sampleStore 8 92).user, [⟨1, 8, RECEIVED, ⟨2022, 4, 10⟩, today, "alice", "bob", "box"⟩]⟩,
   ⟨1⟩⟩

/-- The store of a first start: the constructor of `Database` has inserted the
administrator with balance 0 (database.cpp:102). -/
def freshStore : Database := ⟨[adminRow 0], []⟩

/-- The program started over `freshStore`, after alice and bob have registered and
alice has logged in. -/
def aliceFirstLogin : UserManage :=
  (((((UserManage.start freshStore).registerUser "alice" "pw1" CUSTOMER "alice" "10086" "Beijing").1).registerUser
    "bob" "pw2" CUSTOMER "bob" "10086" "Beijing").1.login "alice" "pw1" ⟨none, none⟩).1

/-- The state after alice, logged in over `sampleStore 8 100`, has logged out and bob
has logged in. -/
def bobAfterAlice : UserManage :=
  (((aliceLoggedIn 8 100).logout (tokenOf "alice")).1.login "bob" "pw2" ⟨none, none⟩).1

/-- A store with the three sample users and one item, sent by alice to bob on 10
April 2022. -/
def itemStore : Database := ⟨(sampleStore 8 92).user, [sampleItem 1 PENDING_REVEICING]⟩

/-- A filter that carries only the key `type`. -/
def typeFilter (type : Int) : Filter := ⟨some type, none, none, none, none, none, none, none, none, none⟩

/-- Calls on the item store: an insertItem, the deletion of item 1 and a second
insertItem. -/
def sampleItemOps : List ItemOp :=
  [.insertItem 8 2 1 ⟨2022, 4, 20⟩ ⟨-1, -1, -1⟩ "alice" "bob" "box", .deleteItem 1,
   .insertItem 5 2 3 ⟨2022, 4, 20⟩ ⟨-1, -1, -1⟩ "bob" "alice" "book"]

/-- Calls made after bob has received item 1: he receives it once more on 25 April
2022, adds 5 to his balance and logs out. -/
def afterReceiveOps : List Op :=
  [.receiveItem laterClock (tokenOf "bob") ⟨some 1⟩, .addBalance (tokenOf "bob") 5, .logout (tokenOf "bob")]

/-- The state after `afterReceiveOps`, made from `bobReceived` of 20 April 2022. -/
def afterReceive : UserManage :=
  ⟨[], ⟨[adminRow 8, customerRow "alice" "pw1" 92, customerRow "bob" "pw2" 5],
    [⟨1, 8, RECEIVED, ⟨2022, 4, 10⟩, ⟨2022, 4, 25⟩, "alice", "bob", "box"⟩]⟩, ⟨1⟩⟩

/-- Calls made from the start over `sampleStore 8 100`: the administrator logs in,
alice logs in and sends `sampleSend` on the day of `sampleClock`. -/
def adminThenSendOps : List Op :=
  [.login "ADMINISTRATOR" "123" ⟨none, none⟩, .login "alice" "pw1" ⟨none, none⟩,
   .sendItem sampleClock (tokenOf "alice") sampleSend]

/-- Calls by which a new customer gets the balance 1000000000: registration, login
and one addBalance. -/
def fundedCustomerOps (username password : String) : List Op :=
  [.registerUser username password CUSTOMER username "10086" "Beijing",
   .login username password ⟨none, none⟩, .addBalance (tokenOf username) 1000000000]

/-- A request for 124999999 fragile items for bob: cost 999999992 at unit price 8. -/
def largeSend : SendInfo := ⟨some "bob", some sampleConfig.FRAGILE, some 124999999, some "box"⟩

/-- Calls made from a first start: bob registers; alice, carol and dave register, log
in and bring their balance to 1000000000; alice and carol send `largeSend`. -/
def twoLargeSendsOps : List Op :=
  [.registerUser "bob" "pw2" CUSTOMER "bob" "10086" "Beijing"] ++
  fundedCustomerOps "alice" "pw1" ++ fundedCustomerOps "carol" "pw3" ++ fundedCustomerOps "dave" "pw4" ++
  [.sendItem sampleClock (tokenOf "alice") largeSend, .sendItem sampleClock (tokenOf "carol") largeSend]

/-! ## Lemmas on the session map and the user table -/

/-- Lookup in a session map with one more entry in front. -/
theorem userMapValue_cons (p : String × User) (rest : List (String × User)) (key : String) :
    userMapValue (p :: rest) key = if p.1 = key then some p.2 else userMapValue rest key := by
  obtain ⟨k, v⟩ := p
  rfl

/-- Lookup after `userMapAddBalance`: only the entry of the given username changes. -/
theorem userMapValue_addBalance (m : List (String × User)) (username key : String) (addend : Int) :
    userMapValue (userMapAddBalance m username addend) key =
      if key = username then (userMapValue m key).map (fun u => u.addBalance addend)
      else userMapValue m key := by
  induction m with
  | nil => simp [userMapAddBalance, userMapValue]
  | cons p rest ih =>
    unfold userMapAddBalance at ih ⊢
    rw [List.map_cons, userMapValue_cons, userMapValue_cons, ih]
    by_cases hk : p.1 = username
    · by_cases hkey : p.1 = key
      · have h3 : key = username := hkey ▸ hk
        simp [hk, hkey, h3]
      · have h1 : ¬ username = key := fun h => hkey (hk.trans h)
        have h2 : ¬ key = username := fun h => h1 h.symm
        simp [hk, h1, h2]
    · by_cases hkey : p.1 = key
      · have hkey2 : ¬ key = username := fun h => hk (hkey.trans h)
        simp [hk, hkey, hkey2]
      · simp [hk, hkey]


/-- The row found after a balance update: the updated row for the updated username, the old row otherwise. -/
theorem queryUserRow_modifyUserBalance (db : Database) (username key : String) (balance : Int) :
    (db.modifyUserBalance username balance).queryUserRow key =
      if key = username then (db.queryUserRow key).map (fun r => { r with balance := balance })
      else db.queryUserRow key := by
  obtain ⟨users, items⟩ := db
  unfold Database.modifyUserBalance Database.queryUserRow
  simp only
  induction users with
  | nil => simp
  | cons r rest ih =>
    rw [List.map_cons, List.find?_cons, List.find?_cons, ih]
    by_cases hr : r.username = username
    · by_cases hk : r.username = key
      · have : key = username := hk ▸ hr
        simp [hr, hk, this]
      · have h1 : ¬ username = key := fun h => hk (hr.trans h)
        have h2 : ¬ key = username := fun h => h1 h.symm
        simp [hr, h1, h2]
    · by_cases hk : r.username = key
      · have hk2 : ¬ key = username := fun h => hr (hk.trans h)
        simp [hr, hk, hk2]
      · simp [hr, hk]

/-- The persisted balance after a balance update. -/
theorem queryBalanceByName_modifyUserBalance (db : Database) (username key : String) (balance : Int) :
    (db.modifyUserBalance username balance).queryBalanceByName key =
      if key = username then (db.queryBalanceByName key).map (fun _ => balance)
      else db.queryBalanceByName key := by
  unfold Database.queryBalanceByName
  rw [queryUserRow_modifyUserBalance]
  by_cases h : key = username
  · simp only [h, if_true]
    cases db.queryUserRow username <;> rfl
  · simp only [h, if_false]

/-- The one-argument query succeeds exactly when the seven-argument query finds a row. -/
theorem queryUserByName_eq (db : Database) (username : String) :
    db.queryUserByName username = (db.queryUserRow username).isSome := by
  unfold Database.queryUserByName Database.queryUserRow
  induction db.user with
  | nil => rfl
  | cons r rest ih =>
    rw [List.any_cons, List.find?_cons, ih]
    by_cases h : r.username = username <;> simp [h]

/-- A balance update neither creates nor removes a user. -/
theorem queryUserByName_modifyUserBalance (db : Database) (username key : String) (balance : Int) :
    (db.modifyUserBalance username balance).queryUserByName key = db.queryUserByName key := by
  rw [queryUserByName_eq, queryUserByName_eq, queryUserRow_modifyUserBalance]
  by_cases h : key = username
  · simp only [h, if_true]
    cases db.queryUserRow username <;> rfl
  · simp only [h, if_false]


/-- A value in the range of `int` is not changed by the reduction. -/
theorem wrapInt_eq_self {n : Int} (h : IsInt32 n) : wrapInt n = n := by
  unfold IsInt32 at h
  unfold wrapInt
  omega

/-- A credential that verifies names a user with a live session object. -/
theorem verify_session {um : UserManage} {token : Token} (h : um.verify token ≠ "") :
    ∃ usr, userMapValue um.userMap (um.verify token) = some usr := by
  unfold UserManage.verify at h ⊢
  cases hu : token.username with
  | none => simp [hu] at h
  | some username =>
    simp only [hu] at h ⊢
    cases hv : userMapValue um.userMap username with
    | none => simp [hv] at h
    | some usr =>
      simp only [hv, Option.isNone_some, Bool.false_eq_true, if_false] at h ⊢
      cases hi : token.iss with
      | none => simp [hi] at h
      | some iss =>
        simp only [hi] at h ⊢
        by_cases hiss : iss ≠ "Haolin Yang"
        · simp [hiss] at h
        · simp only [hiss, if_false]
          exact ⟨usr, hv⟩

/-- First exit of addBalance: the addend is out of range. -/
theorem addBalance_too_large {um : UserManage} {token : Token} {addend : Int}
    (h : addend > 1000000000 ∨ addend < -1000000000) :
    um.addBalance token addend = some (um, "单次余额改变量不能超过1000000000") := by
  unfold UserManage.addBalance
  rw [if_pos h]

/-- Second exit of addBalance: the credential does not verify. -/
theorem addBalance_unverified {um : UserManage} {token : Token} {addend : Int}
    (h : ¬ (addend > 1000000000 ∨ addend < -1000000000)) (hv : um.verify token = "") :
    um.addBalance token addend = some (um, "验证失败") := by
  unfold UserManage.addBalance
  rw [if_neg h]
  simp only [hv, if_true]

/-- The rest of addBalance, for a verified caller with session object `usr`. -/
theorem addBalance_verified {um : UserManage} {token : Token} {addend : Int} {usr : User}
    (h : ¬ (addend > 1000000000 ∨ addend < -1000000000)) (hv : um.verify token ≠ "")
    (husr : userMapValue um.userMap (um.verify token) = some usr) :
    um.addBalance token addend =
      if wrapInt (usr.balance + addend) < 0 then some (um, "余额不能为负")
      else if wrapInt (usr.balance + addend) > 1000000000 then some (um, "余额上限为1000000000")
      else
        some ({ um with
                db := um.db.modifyUserBalance (um.verify token) (wrapInt (usr.balance + addend))
                userMap := userMapAddBalance um.userMap (um.verify token) addend }, "") := by
  unfold UserManage.addBalance
  rw [if_neg h]
  simp only [hv, if_false, husr]

/-- C2: addBalance succeeds (returns the empty string) exactly when the addend is
within ±1000000000, the credential verifies and the caller's cached balance b
satisfies 0 ≤ b + addend ≤ 1000000000; on success the cached balance becomes
b + addend, and so does the persisted balance of the caller's row. The cached
balance is a C++ int. -/
theorem addBalance_success_iff (um : UserManage) (token : Token) (addend : Int)
    (hint : ∀ usr, userMapValue um.userMap (um.verify token) = some usr → IsInt32 usr.balance) :
    ∃ um' r, um.addBalance token addend = some (um', r) ∧
      (r = "" ↔
        (-1000000000 ≤ addend ∧ addend ≤ 1000000000) ∧ um.verify token ≠ "" ∧
          ∃ usr, userMapValue um.userMap (um.verify token) = some usr ∧
            0 ≤ usr.balance + addend ∧ usr.balance + addend ≤ 1000000000) ∧
      (r = "" → ∀ usr, userMapValue um.userMap (um.verify token) = some usr →
        (userMapValue um'.userMap (um.verify token)).map User.balance = some (usr.balance + addend) ∧
        (um.db.queryUserByName (um.verify token) = true →
          um'.db.queryBalanceByName (um.verify token) = some (usr.balance + addend))) := by
  by_cases h1 : addend > 1000000000 ∨ addend < -1000000000
  · refine ⟨um, _, addBalance_too_large h1, ?_, ?_⟩
    · constructor
      · intro h; exact absurd h (by decide)
      · intro h; omega
    · intro h; exact absurd h (by decide)
  · by_cases hv : um.verify token = ""
    · refine ⟨um, _, addBalance_unverified h1 hv, ?_, ?_⟩
      · constructor
        · intro h; exact absurd h (by decide)
        · intro h; exact absurd hv h.2.1
      · intro h; exact absurd h (by decide)
    · obtain ⟨usr, husr⟩ := verify_session hv
      have hb := hint usr husr
      unfold IsInt32 at hb
      have hres := addBalance_verified h1 hv husr
      by_cases h2 : wrapInt (usr.balance + addend) < 0
      · rw [if_pos h2] at hres
        refine ⟨um, _, hres, ?_, ?_⟩
        · constructor
          · intro h; exact absurd h (by decide)
          · rintro ⟨_, _, usr2, hu2, h3, h4⟩
            rw [husr] at hu2
            cases hu2
            unfold wrapInt at h2
            omega
        · intro h; exact absurd h (by decide)
      · rw [if_neg h2] at hres
        by_cases h3 : wrapInt (usr.balance + addend) > 1000000000
        · rw [if_pos h3] at hres
          refine ⟨um, _, hres, ?_, ?_⟩
          · constructor
            · intro h; exact absurd h (by decide)
            · rintro ⟨_, _, usr2, hu2, h4, h5⟩
              rw [husr] at hu2
              cases hu2
              unfold wrapInt at h3
              omega
          · intro h; exact absurd h (by decide)
        · rw [if_neg h3] at hres
          have hw : wrapInt (usr.balance + addend) = usr.balance + addend := by
            unfold wrapInt at h2 h3 ⊢
            omega
          refine ⟨_, _, hres, ?_, ?_⟩
          · constructor
            · intro _
              refine ⟨by omega, hv, usr, husr, ?_, ?_⟩ <;> omega
            · intro _; rfl
          · intro _ usr2 hu2
            rw [husr] at hu2
            cases hu2
            constructor
            · simp only [userMapValue_addBalance, if_true, husr, Option.map_some', User.addBalance, hw]
            · intro hrow
              rw [queryUserByName_eq] at hrow
              simp only [queryBalanceByName_modifyUserBalance, if_true, hw]
              unfold Database.queryBalanceByName
              cases hq : um.db.queryUserRow (um.verify token) with
              | none => rw [hq] at hrow; cases hrow
              | some r => rfl

/-- Witness of C2: alice, logged in with balance 100, adds 50. -/
theorem addBalance_success_iff_witness :
    (∀ usr, userMapValue (aliceLoggedIn 0 100).userMap ((aliceLoggedIn 0 100).verify (tokenOf "alice")) = some usr →
      IsInt32 usr.balance) ∧
    ∃ um' r, (aliceLoggedIn 0 100).addBalance (tokenOf "alice") 50 = some (um', r) ∧
      (r = "" ↔
        (-1000000000 ≤ (50 : Int) ∧ (50 : Int) ≤ 1000000000) ∧ (aliceLoggedIn 0 100).verify (tokenOf "alice") ≠ "" ∧
          ∃ usr, userMapValue (aliceLoggedIn 0 100).userMap ((aliceLoggedIn 0 100).verify (tokenOf "alice")) = some usr ∧
            0 ≤ usr.balance + 50 ∧ usr.balance + 50 ≤ 1000000000) ∧
      (r = "" → ∀ usr, userMapValue (aliceLoggedIn 0 100).userMap ((aliceLoggedIn 0 100).verify (tokenOf "alice")) = some usr →
        (userMapValue um'.userMap ((aliceLoggedIn 0 100).verify (tokenOf "alice"))).map User.balance = some (usr.balance + 50) ∧
        ((aliceLoggedIn 0 100).db.queryUserByName ((aliceLoggedIn 0 100).verify (tokenOf "alice")) = true →
          um'.db.queryBalanceByName ((aliceLoggedIn 0 100).verify (tokenOf "alice")) = some (usr.balance + 50))) :=
  have hint : ∀ usr, userMapValue (aliceLoggedIn 0 100).userMap ((aliceLoggedIn 0 100).verify (tokenOf "alice")) = some usr →
      IsInt32 usr.balance := by
    intro usr h
    have h2 : userMapValue (aliceLoggedIn 0 100).userMap ((aliceLoggedIn 0 100).verify (tokenOf "alice")) =
        some ⟨"alice", "pw1", 100, CUSTOMER, "alice", "10086", "Beijing"⟩ := by decide
    rw [h2] at h
    cases h
    decide
  ⟨hint, addBalance_success_iff (aliceLoggedIn 0 100) (tokenOf "alice") 50 hint⟩

/-- addBalance always returns, and a non-empty message comes with the unchanged
state. -/
theorem addBalance_returns (um : UserManage) (token : Token) (addend : Int) :
    ∃ um' r, um.addBalance token addend = some (um', r) ∧ (r ≠ "" → um' = um) := by
  by_cases h1 : addend > 1000000000 ∨ addend < -1000000000
  · exact ⟨um, _, addBalance_too_large h1, fun _ => rfl⟩
  · by_cases hv : um.verify token = ""
    · exact ⟨um, _, addBalance_unverified h1 hv, fun _ => rfl⟩
    · obtain ⟨usr, husr⟩ := verify_session hv
      have hres := addBalance_verified h1 hv husr
      by_cases h2 : wrapInt (usr.balance + addend) < 0
      · rw [if_pos h2] at hres
        exact ⟨um, _, hres, fun _ => rfl⟩
      · rw [if_neg h2] at hres
        by_cases h3 : wrapInt (usr.balance + addend) > 1000000000
        · rw [if_pos h3] at hres
          exact ⟨um, _, hres, fun _ => rfl⟩
        · rw [if_neg h3] at hres
          exact ⟨_, _, hres, fun h => absurd rfl h⟩

/-- C3: addBalance always returns, and when the message it returns is not empty
the whole state (every persisted balance and every cached balance) is the state
before the call. -/
theorem addBalance_error_keeps_state (um : UserManage) (token : Token) (addend : Int) :
    ∃ um' r, um.addBalance token addend = some (um', r) ∧ (r ≠ "" → um' = um) := by
  obtain ⟨um', r, hres, hkeep⟩ := addBalance_returns um token addend
  exact ⟨um', r, hres, fun hr => hkeep hr⟩

/-- C10: registerUser called with type ADMINISTRATOR returns a non-empty message
and leaves the state, hence the user table, as it was. -/
theorem registerUser_administrator_refused (um : UserManage) (username password name phoneNumber address : String) :
    (um.registerUser username password ADMINISTRATOR name phoneNumber address).2 ≠ "" ∧
    (um.registerUser username password ADMINISTRATOR name phoneNumber address).1 = um ∧
    (um.registerUser username password ADMINISTRATOR name phoneNumber address).1.db.user = um.db.user := by
  unfold UserManage.registerUser
  by_cases h1 : username = "" ∨ (utf16 username).length > 10
  · rw [if_pos h1]
    exact ⟨by show _ ≠ ""; simp only [ne_eq]; decide, rfl, rfl⟩
  · rw [if_neg h1]
    by_cases h2 : um.db.queryUserByName username = true
    · rw [if_pos h2]
      exact ⟨by show _ ≠ ""; simp only [ne_eq]; decide, rfl, rfl⟩
    · rw [if_neg h2, if_pos rfl]
      exact ⟨by show _ ≠ ""; simp only [ne_eq]; decide, rfl, rfl⟩

/-! ## Lemmas on transferBalance and sendItem -/

/-- Two results with different messages are different. -/
theorem reply_ne {α β : Type} {x y : α} {a b : β} (hab : a ≠ b) : some (x, a) ≠ some (y, b) := by
  intro h
  injection h with h
  injection h with _ h
  exact hab h

/-- The first recipient guard of transferBalance never fires for the recipient ADMINISTRATOR: its first code unit, 65, is below 51712. -/
theorem guard_high_administrator (c : Int) :
    qstringGeChar (qstringPlusInt "ADMINISTRATOR" c) (qcharOfInt 1000000000) = false := by
  rfl

/-- The second recipient guard of transferBalance never fires. -/
theorem guard_negative (dstUser : String) (c : Int) :
    qstringLtNull (qstringPlusInt dstUser c) = false := by
  unfold qstringLtNull
  simp

/-- What a successful addBalance has checked and done. -/
theorem addBalance_ok {um um' : UserManage} {token : Token} {addend : Int}
    (h : um.addBalance token addend = some (um', "")) :
    ∃ usr, um.verify token ≠ "" ∧ userMapValue um.userMap (um.verify token) = some usr ∧
      -1000000000 ≤ addend ∧ addend ≤ 1000000000 ∧
      0 ≤ wrapInt (usr.balance + addend) ∧ wrapInt (usr.balance + addend) ≤ 1000000000 ∧
      um' = { um with
              db := um.db.modifyUserBalance (um.verify token) (wrapInt (usr.balance + addend))
              userMap := userMapAddBalance um.userMap (um.verify token) addend } := by
  by_cases h1 : addend > 1000000000 ∨ addend < -1000000000
  · rw [addBalance_too_large h1] at h
    exact absurd h (reply_ne (by decide))
  · by_cases hv : um.verify token = ""
    · rw [addBalance_unverified h1 hv] at h
      exact absurd h (reply_ne (by decide))
    · obtain ⟨usr, husr⟩ := verify_session hv
      rw [addBalance_verified h1 hv husr] at h
      by_cases h2 : wrapInt (usr.balance + addend) < 0
      · rw [if_pos h2] at h
        exact absurd h (reply_ne (by decide))
      · rw [if_neg h2] at h
        by_cases h3 : wrapInt (usr.balance + addend) > 1000000000
        · rw [if_pos h3] at h
          exact absurd h (reply_ne (by decide))
        · rw [if_neg h3] at h
          refine ⟨usr, hv, husr, by omega, by omega, by omega, by omega, ?_⟩
          injection h with h
          injection h with h _
          exact h.symm

/-- A failed addBalance leaves the state as it was. -/
theorem addBalance_error {um um' : UserManage} {token : Token} {addend : Int} {r : String}
    (h : um.addBalance token addend = some (um', r)) (hr : r ≠ "") : um' = um := by
  obtain ⟨um2, r2, h2, h3⟩ := addBalance_returns um token addend
  rw [h] at h2
  injection h2 with h2
  injection h2 with h4 h5
  subst h4; subst h5
  exact h3 hr

/-- What a successful transferBalance has checked and done: the debit through addBalance, then the credit on the balance read before the debit. -/
theorem transferBalance_ok {um um' : UserManage} {token : Token} {c : Int} {dstUser : String}
    (h : um.transferBalance token c dstUser = some (um', "")) :
    ∃ dstBalance um1, -1000000000 < c ∧ c < 1000000000 ∧
      um.db.queryBalanceByName dstUser = some dstBalance ∧
      um.addBalance token (wrapInt (-c)) = some (um1, "") ∧
      um' = { um1 with db := um1.db.modifyUserBalance dstUser (wrapInt (dstBalance + c)) } := by
  unfold UserManage.transferBalance at h
  split at h
  · exact absurd h (reply_ne (by decide))
  · rename_i hc
    split at h
    · injection h with h
      injection h with _ h
      have := congrArg String.length h
      simp only [String.length_append] at this
      have h0 : "无法查到另一个用户".length = 9 := by decide
      rw [h0] at this
      have h1 : "".length = 0 := by decide
      omega
    · split at h
      · cases h
      · rename_i dstBalance hq
        split at h
        · exact absurd h (reply_ne (by decide))
        · split at h
          · exact absurd h (reply_ne (by decide))
          · split at h
            · cases h
            · rename_i um1 ret hadd
              split at h
              · rename_i hret
                injection h with h
                injection h with _ h
                exact absurd h hret
              · rename_i hret
                have hret2 : ret = "" := by simpa using hret
                subst hret2
                injection h with h
                injection h with h _
                exact ⟨dstBalance, um1, by omega, by omega, hq, hadd, h.symm⟩


/-- A failed transferBalance leaves the state as it was. -/
theorem transferBalance_error {um um' : UserManage} {token : Token} {c : Int} {dstUser r : String}
    (h : um.transferBalance token c dstUser = some (um', r)) (hr : r ≠ "") : um' = um := by
  unfold UserManage.transferBalance at h
  split at h
  · injection h with h; injection h with h _; exact h.symm
  · split at h
    · injection h with h; injection h with h _; exact h.symm
    · split at h
      · cases h
      · split at h
        · injection h with h; injection h with h _; exact h.symm
        · split at h
          · injection h with h; injection h with h _; exact h.symm
          · split at h
            · cases h
            · rename_i um1 ret hadd
              split at h
              · rename_i hret
                injection h with h
                injection h with h1 h2
                subst h1
                exact addBalance_error hadd hret
              · injection h with h
                injection h with _ h2
                exact absurd h2.symm hr

/-- What a successful sendItem has checked and done. -/
theorem sendItem_ok {cfg : Config} {clk : Clock} {um um' : UserManage} {token : Token} {info : SendInfo}
    {c : Int} (h : UserManage.sendItem cfg clk um token info = some (um', .number c)) :
    ∃ usr dstName type amount description um1,
      um.verify token ≠ "" ∧ userMapValue um.userMap (um.verify token) = some usr ∧
      usr.type = CUSTOMER ∧ info = ⟨some dstName, some type, some amount, some description⟩ ∧
      UserManage.sendCost cfg type amount = some c ∧
      um.transferBalance token c "ADMINISTRATOR" = some (um1, "") ∧
      um' = { um1 with
              itemManage := (um1.itemManage.insertItem um1.db c type PENDING_REVEICING clk.today
                ⟨-1, -1, -1⟩ (um.verify token) dstName description).1
              db := (um1.itemManage.insertItem um1.db c type PENDING_REVEICING clk.today
                ⟨-1, -1, -1⟩ (um.verify token) dstName description).2.1 } := by
  unfold UserManage.sendItem at h
  simp only at h
  split at h
  · cases h
  · rename_i hv
    split at h
    · cases h
    · rename_i usr husr
      split at h
      · cases h
      · rename_i htype
        split at h
        · rename_i dstName type amount description hd ht ha hdesc
          split at h
          · cases h
          · split at h
            · cases h
            · split at h
              · cases h
              · split at h
                · cases h
                · rename_i cost hcost
                  split at h
                  · cases h
                  · rename_i um1 ret htr
                    split at h
                    · cases h
                    · rename_i hret
                      have hret2 : ret = "" := by simpa using hret
                      subst hret2
                      injection h with h
                      injection h with h1 h2
                      injection h2 with h2
                      subst h2
                      refine ⟨usr, dstName, type, amount, description, um1, hv, husr, by simpa using htype, ?_,
                        hcost, htr, h1.symm⟩
                      cases info
                      simp only at hd ht ha hdesc
                      subst hd ht ha hdesc
                      rfl
        · cases h

/-- A sendItem that returns an error message leaves the state as it was. -/
theorem sendItem_error {cfg : Config} {clk : Clock} {um um' : UserManage} {token : Token} {info : SendInfo}
    {m : String} (h : UserManage.sendItem cfg clk um token info = some (um', .message m)) : um' = um := by
  unfold UserManage.sendItem at h
  simp only at h
  split at h
  · injection h with h; injection h with h _; exact h.symm
  · split at h
    · cases h
    · split at h
      · injection h with h; injection h with h _; exact h.symm
      · split at h
        · split at h
          · injection h with h; injection h with h _; exact h.symm
          · split at h
            · cases h
            · split at h
              · injection h with h; injection h with h _; exact h.symm
              · split at h
                · injection h with h; injection h with h _; exact h.symm
                · split at h
                  · cases h
                  · rename_i um1 ret htr
                    split at h
                    · rename_i hret
                      injection h with h
                      injection h with h1 _
                      subst h1
                      exact transferBalance_error htr hret
                    · cases h
        · injection h with h; injection h with h _; exact h.symm

/-- Inserting an item does not touch the user table. -/
theorem insertItem_user (db : Database) (id cost state : Int) (s r : Time) (src dst desc : String) :
    (db.insertItem id cost state s r src dst desc).user = db.user := by
  unfold Database.insertItem
  split <;> rfl

/-- A balance update keeps the usernames of the table. -/
theorem modifyUserBalance_usernames (db : Database) (username : String) (balance : Int) :
    (db.modifyUserBalance username balance).user.map UserRow.username = db.user.map UserRow.username := by
  unfold Database.modifyUserBalance
  simp only [List.map_map]
  apply List.map_congr_left
  intro r _
  simp only [Function.comp]
  split <;> rfl

/-- With unique usernames, a balance update changes the sum of the balances by the difference on the updated row. -/
theorem sum_modifyUserBalance (db : Database) (username : String) (b v : Int)
    (hnodup : (db.user.map UserRow.username).Nodup)
    (hb : db.queryBalanceByName username = some b) :
    ((db.modifyUserBalance username v).user.map UserRow.balance).sum =
      (db.user.map UserRow.balance).sum - b + v := by
  obtain ⟨users, items⟩ := db
  unfold Database.queryBalanceByName Database.queryUserRow at hb
  unfold Database.modifyUserBalance
  simp only at hb hnodup ⊢
  induction users with
  | nil => simp at hb
  | cons r rest ih =>
    rw [List.map_cons, List.nodup_cons] at hnodup
    rw [List.find?_cons] at hb
    by_cases hr : r.username = username
    · have hrest : rest.map (fun r => if r.username = username then { r with balance := v } else r) = rest := by
        conv_rhs => rw [← List.map_id rest]
        apply List.map_congr_left
        intro x hx
        have : x.username ≠ username := by
          intro hxu
          apply hnodup.1
          rw [hr, ← hxu]
          exact List.mem_map_of_mem _ hx
        simp [this]
      simp only [hr, decide_True, Option.map_some', Option.some.injEq] at hb
      simp only [List.map_cons, hr, if_true, hrest, List.sum_cons, hb]
      omega
    · simp only [hr, decide_False] at hb
      have := ih hnodup.2 hb
      simp only [List.map_cons, hr, if_false, List.sum_cons, this]
      omega


/-- ItemManage::insertItem does not touch the user table. -/
theorem itemManage_insertItem_user (im : ItemManage) (db : Database) (cost state type : Int) (s r : Time)
    (src dst desc : String) :
    (im.insertItem db cost state type s r src dst desc).2.1.user = db.user := by
  unfold ItemManage.insertItem
  exact insertItem_user _ _ _ _ _ _ _ _ _

/-- The persisted balance depends on the user table only. -/
theorem queryBalanceByName_congr {db1 db2 : Database} (h : db1.user = db2.user) (username : String) :
    db1.queryBalanceByName username = db2.queryBalanceByName username := by
  unfold Database.queryBalanceByName Database.queryUserRow
  rw [h]

/-- Where the credit fits in a C++ int: after a successful sendItem with cost c by a
customer whose cached balance is the persisted one, the sender's persisted balance
is its former value minus c and the persisted balance of ADMINISTRATOR is its former
value plus c, so the sum of all persisted balances is unchanged. The sender is not
the account ADMINISTRATOR, and the balances involved are C++ ints before and
after. -/
theorem sendItem_moves_cost (cfg : Config) (clk : Clock) (um um' : UserManage) (token : Token)
    (info : SendInfo) (c : Int) (usr : User) (ba : Int)
    (hsend : UserManage.sendItem cfg clk um token info = some (um', .number c))
    (husr : userMapValue um.userMap (um.verify token) = some usr)
    (hcache : um.db.queryBalanceByName (um.verify token) = some usr.balance)
    (hint : IsInt32 usr.balance)
    (hne : um.verify token ≠ "ADMINISTRATOR")
    (hadm : um.db.queryBalanceByName "ADMINISTRATOR" = some ba)
    (hfit : IsInt32 (ba + c)) :
    um'.db.queryBalanceByName (um.verify token) = some (usr.balance - c) ∧
    um'.db.queryBalanceByName "ADMINISTRATOR" = some (ba + c) ∧
    ((um.db.user.map UserRow.username).Nodup →
      (um'.db.user.map UserRow.balance).sum = (um.db.user.map UserRow.balance).sum) := by
  obtain ⟨usr2, dstName, type, amount, description, um2, hv, husr2, -, -, -, htr, hum'⟩ := sendItem_ok hsend
  rw [husr] at husr2
  cases husr2
  obtain ⟨dstBalance, um1, hc1, hc2, hq, hadd, hum2⟩ := transferBalance_ok htr
  rw [hadm] at hq
  cases hq
  obtain ⟨usr3, -, husr3, -, -, hlo, hhi, hum1⟩ := addBalance_ok hadd
  rw [husr] at husr3
  cases husr3
  unfold IsInt32 at hint hfit
  have hneg : wrapInt (-c) = -c := by unfold wrapInt; omega
  rw [hneg] at hlo hhi hum1
  have hdebit : wrapInt (usr.balance + -c) = usr.balance - c := by
    unfold wrapInt at hlo hhi ⊢
    omega
  have hcredit : wrapInt (ba + c) = ba + c := by unfold wrapInt; omega
  rw [hdebit] at hum1
  rw [hcredit] at hum2
  have huser : um'.db.user =
      ((um.db.modifyUserBalance (um.verify token) (usr.balance - c)).modifyUserBalance
        "ADMINISTRATOR" (ba + c)).user := by
    rw [hum', hum2, hum1]
    simp only [itemManage_insertItem_user]
  have hne2 : ¬ "ADMINISTRATOR" = um.verify token := fun h => hne h.symm
  refine ⟨?_, ?_, ?_⟩
  · rw [queryBalanceByName_congr huser, queryBalanceByName_modifyUserBalance, if_neg hne,
      queryBalanceByName_modifyUserBalance, if_pos rfl, hcache]
    rfl
  · rw [queryBalanceByName_congr huser, queryBalanceByName_modifyUserBalance, if_pos rfl,
      queryBalanceByName_modifyUserBalance, if_neg hne2, hadm]
    rfl
  · intro hnodup
    have hadm1 : (um.db.modifyUserBalance (um.verify token) (usr.balance - c)).queryBalanceByName
        "ADMINISTRATOR" = some ba := by
      rw [queryBalanceByName_modifyUserBalance, if_neg hne2, hadm]
    have hnodup1 : ((um.db.modifyUserBalance (um.verify token) (usr.balance - c)).user.map
        UserRow.username).Nodup := by
      rw [modifyUserBalance_usernames]
      exact hnodup
    rw [huser, sum_modifyUserBalance _ _ _ _ hnodup1 hadm1, sum_modifyUserBalance _ _ _ _ hnodup hcache]
    omega


/-- An instance of the lemma above: alice (balance 100) sends one fragile item at
price 8 while the administrator holds 8. -/
theorem sendItem_moves_cost_witness :
    UserManage.sendItem sampleConfig sampleClock (aliceLoggedIn 8 100) (tokenOf "alice") sampleSend =
      some (aliceSent, .number 8) ∧
    aliceSent.db.queryBalanceByName ((aliceLoggedIn 8 100).verify (tokenOf "alice")) = some (100 - 8) ∧
    aliceSent.db.queryBalanceByName "ADMINISTRATOR" = some (8 + 8) ∧
    ((((aliceLoggedIn 8 100).db.user.map UserRow.username).Nodup →
      (aliceSent.db.user.map UserRow.balance).sum = ((aliceLoggedIn 8 100).db.user.map UserRow.balance).sum)) :=
  ⟨by decide,
   sendItem_moves_cost sampleConfig sampleClock (aliceLoggedIn 8 100) aliceSent (tokenOf "alice") sampleSend 8
    ⟨"alice", "pw1", 100, CUSTOMER, "alice", "10086", "Beijing"⟩ 8
    (by decide) (by decide) (by decide) (by decide) (by decide) (by decide) (by decide)⟩

/-! ## sendItem: the row stored and the cost charged -/

/-- A balance update does not touch the item table. -/
theorem modifyUserBalance_item (db : Database) (username : String) (balance : Int) :
    (db.modifyUserBalance username balance).item = db.item := rfl

/-- addBalance touches neither the item table nor the id counter. -/
theorem addBalance_keeps_items {um um' : UserManage} {token : Token} {addend : Int} {r : String}
    (h : um.addBalance token addend = some (um', r)) :
    um'.db.item = um.db.item ∧ um'.itemManage = um.itemManage := by
  by_cases hr : r = ""
  · subst hr
    obtain ⟨usr, -, -, -, -, -, -, hum⟩ := addBalance_ok h
    rw [hum]
    exact ⟨rfl, rfl⟩
  · rw [addBalance_error h hr]
    exact ⟨rfl, rfl⟩

/-- transferBalance touches neither the item table nor the id counter. -/
theorem transferBalance_keeps_items {um um' : UserManage} {token : Token} {c : Int} {dstUser r : String}
    (h : um.transferBalance token c dstUser = some (um', r)) :
    um'.db.item = um.db.item ∧ um'.itemManage = um.itemManage := by
  by_cases hr : r = ""
  · subst hr
    obtain ⟨dstBalance, um1, -, -, -, hadd, hum⟩ := transferBalance_ok h
    obtain ⟨h1, h2⟩ := addBalance_keeps_items hadd
    rw [hum]
    exact ⟨h1, h2⟩
  · rw [transferBalance_error h hr]
    exact ⟨rfl, rfl⟩

/-- The row a successful sendItem stores. When the next id is free, the item
table after the call is the table before it followed by exactly one row: id
total + 1, the charged cost, sending date today, receiving date (-1,-1,-1), srcName
the caller, dstName and description as requested, and as state the category
`info["type"]` of the request (not PENDING_REVEICING: the call passes the category
in the position of `state`). -/
theorem sendItem_inserts_row (cfg : Config) (clk : Clock) (um um' : UserManage) (token : Token)
    (info : SendInfo) (c : Int)
    (hsend : UserManage.sendItem cfg clk um token info = some (um', .number c))
    (hfresh : ∀ it ∈ um.db.item, it.id ≠ wrapInt (um.itemManage.total + 1)) :
    ∃ dstName type amount description,
      info = ⟨some dstName, some type, some amount, some description⟩ ∧
      um'.db.item = um.db.item ++
        [⟨wrapInt (um.itemManage.total + 1), c, type, clk.today, ⟨-1, -1, -1⟩, um.verify token, dstName,
          description⟩] := by
  obtain ⟨usr, dstName, type, amount, description, um1, -, -, -, hinfo, -, htr, hum'⟩ := sendItem_ok hsend
  obtain ⟨hitems, him⟩ := transferBalance_keeps_items htr
  refine ⟨dstName, type, amount, description, hinfo, ?_⟩
  rw [hum']
  simp only [ItemManage.insertItem, Database.insertItem, him, hitems]
  have hnone : (um.db.item.any fun it => decide (it.id = wrapInt (um.itemManage.total + 1))) = false := by
    rw [List.any_eq_false]
    intro it hit
    simpa using hfresh it hit
  rw [hnone]
  simp [hitems]

/-- C5: at the failing input. Alice sends `sampleSend` (category FRAGILE, which is 1
in the sample configuration): the call succeeds with cost 8 and appends exactly one
row with receiving date (-1,-1,-1), srcName alice, dstName bob and cost 8, but the
state of that row is the category 1, not PENDING_REVEICING. -/
theorem sendItem_stores_category_as_state :
    UserManage.sendItem sampleConfig sampleClock (aliceLoggedIn 8 100) (tokenOf "alice") sampleSend =
      some (aliceSent, .number 8) ∧
    aliceSent.db.item = (aliceLoggedIn 8 100).db.item ++
      [⟨1, 8, sampleConfig.FRAGILE, ⟨2022, 4, 20⟩, ⟨-1, -1, -1⟩, "alice", "bob", "box"⟩] ∧
    sampleConfig.FRAGILE ≠ PENDING_REVEICING := by
  decide

/-- The cost computed by the switch, for pairwise different labels. -/
theorem sendCost_some {cfg : Config} {type amount c : Int} (hd : cfg.Distinct)
    (h : UserManage.sendCost cfg type amount = some c) :
    (type = cfg.FRAGILE → c = wrapInt (amount * cfg.FRAGILE_ITEM_PRICE)) ∧
    (type = cfg.BOOK → c = wrapInt (amount * cfg.BOOK_PRICE)) ∧
    (type = cfg.NORMAL → c = wrapInt (amount * cfg.NORMAL_ITEM_PRICE)) := by
  obtain ⟨h1, h2, h3⟩ := hd
  unfold UserManage.sendCost at h
  refine ⟨?_, ?_, ?_⟩
  · intro ht
    rw [if_pos ht] at h
    injection h with h
    exact h.symm
  · intro ht
    rw [if_neg (by rw [ht]; exact fun e => h1 e.symm), if_pos ht] at h
    injection h with h
    exact h.symm
  · intro ht
    rw [if_neg (by rw [ht]; exact fun e => h2 e.symm), if_neg (by rw [ht]; exact fun e => h3 e.symm),
      if_pos ht] at h
    injection h with h
    exact h.symm

/-- The default branch of the switch. -/
theorem sendCost_none {cfg : Config} {type amount : Int}
    (h : type ≠ cfg.FRAGILE ∧ type ≠ cfg.BOOK ∧ type ≠ cfg.NORMAL) :
    UserManage.sendCost cfg type amount = none := by
  unfold UserManage.sendCost
  rw [if_neg h.1, if_neg h.2.1, if_neg h.2.2]

/-- A request whose category is none of the three (or is missing) is answered by an error message, on an unchanged state. -/
theorem sendItem_no_category {cfg : Config} {clk : Clock} {um : UserManage} {token : Token} {info : SendInfo}
    (h : ∀ t, info.type = some t → t ≠ cfg.FRAGILE ∧ t ≠ cfg.BOOK ∧ t ≠ cfg.NORMAL) :
    ∃ m, UserManage.sendItem cfg clk um token info = some (um, .message m) ∧ m ≠ "" := by
  unfold UserManage.sendItem
  simp only
  by_cases hv : um.verify token = ""
  · rw [if_pos hv]
    exact ⟨_, rfl, by decide⟩
  · rw [if_neg hv]
    obtain ⟨usr, husr⟩ := verify_session hv
    rw [husr]
    simp only
    by_cases hty : usr.type ≠ CUSTOMER
    · rw [if_pos hty]
      exact ⟨_, rfl, by decide⟩
    · rw [if_neg hty]
      obtain ⟨dstName, type, amount, description⟩ := info
      cases dstName with
      | none => exact ⟨_, rfl, by decide⟩
      | some dstName =>
        cases type with
        | none => exact ⟨_, rfl, by decide⟩
        | some type =>
          cases amount with
          | none => exact ⟨_, rfl, by decide⟩
          | some amount =>
            cases description with
            | none => exact ⟨_, rfl, by decide⟩
            | some description =>
              simp only
              by_cases hq : um.db.queryUserByName dstName = true
              · have hq2 := hq
                rw [queryUserByName_eq] at hq2
                cases hrow : um.db.queryUserRow dstName with
                | none => rw [hrow] at hq2; cases hq2
                | some dstRow =>
                  simp only [hq, Bool.not_true, Bool.false_eq_true, if_false]
                  by_cases hdt : dstRow.type ≠ CUSTOMER
                  · rw [if_pos hdt]
                    exact ⟨_, rfl, by decide⟩
                  · rw [if_neg hdt, sendCost_none (h type rfl)]
                    exact ⟨_, rfl, by decide⟩
              · simp only [hq, Bool.not_false, if_true]
                exact ⟨_, rfl, by decide⟩

/-- C6, as amended: with pairwise different category constants, the cost of a
successful sendItem for a request of category FRAGILE, BOOK or NORMAL is
amount × unit price of that category reduced to the range of a C++ int, hence
amount × unit price itself whenever that product is a C++ int; and for a request
whose category is none of the three, sendItem returns a non-empty error message
and the state is unchanged. -/
theorem sendItem_cost (cfg : Config) (clk : Clock) (um : UserManage) (token : Token) (info : SendInfo)
    (hd : cfg.Distinct) :
    (∀ um' c t amount, info.type = some t → info.amount = some amount →
      UserManage.sendItem cfg clk um token info = some (um', .number c) →
        (t = cfg.FRAGILE → c = wrapInt (amount * cfg.FRAGILE_ITEM_PRICE) ∧
          (IsInt32 (amount * cfg.FRAGILE_ITEM_PRICE) → c = amount * cfg.FRAGILE_ITEM_PRICE)) ∧
        (t = cfg.BOOK → c = wrapInt (amount * cfg.BOOK_PRICE) ∧
          (IsInt32 (amount * cfg.BOOK_PRICE) → c = amount * cfg.BOOK_PRICE)) ∧
        (t = cfg.NORMAL → c = wrapInt (amount * cfg.NORMAL_ITEM_PRICE) ∧
          (IsInt32 (amount * cfg.NORMAL_ITEM_PRICE) → c = amount * cfg.NORMAL_ITEM_PRICE))) ∧
    ((∀ t, info.type = some t → t ≠ cfg.FRAGILE ∧ t ≠ cfg.BOOK ∧ t ≠ cfg.NORMAL) →
      ∃ m, UserManage.sendItem cfg clk um token info = some (um, .message m) ∧ m ≠ "") := by
  refine ⟨?_, sendItem_no_category⟩
  intro um' c t amount ht ha hsend
  obtain ⟨usr, dstName, type, amount2, description, um1, -, -, -, hinfo, hcost, -, -⟩ := sendItem_ok hsend
  rw [hinfo] at ht ha
  simp only [Option.some.injEq] at ht ha
  subst ht ha
  obtain ⟨h1, h2, h3⟩ := sendCost_some hd hcost
  refine ⟨fun e => ⟨h1 e, fun hi => ?_⟩, fun e => ⟨h2 e, fun hi => ?_⟩, fun e => ⟨h3 e, fun hi => ?_⟩⟩
  · rw [h1 e, wrapInt_eq_self hi]
  · rw [h2 e, wrapInt_eq_self hi]
  · rw [h3 e, wrapInt_eq_self hi]


/-- Witness of C6 as amended, at the sample configuration and `sampleSend`. -/
theorem sendItem_cost_witness :
    sampleConfig.Distinct ∧
    ((∀ um' c t amount, sampleSend.type = some t → sampleSend.amount = some amount →
      UserManage.sendItem sampleConfig sampleClock (aliceLoggedIn 8 100) (tokenOf "alice") sampleSend =
          some (um', .number c) →
        (t = sampleConfig.FRAGILE → c = wrapInt (amount * sampleConfig.FRAGILE_ITEM_PRICE) ∧
          (IsInt32 (amount * sampleConfig.FRAGILE_ITEM_PRICE) → c = amount * sampleConfig.FRAGILE_ITEM_PRICE)) ∧
        (t = sampleConfig.BOOK → c = wrapInt (amount * sampleConfig.BOOK_PRICE) ∧
          (IsInt32 (amount * sampleConfig.BOOK_PRICE) → c = amount * sampleConfig.BOOK_PRICE)) ∧
        (t = sampleConfig.NORMAL → c = wrapInt (amount * sampleConfig.NORMAL_ITEM_PRICE) ∧
          (IsInt32 (amount * sampleConfig.NORMAL_ITEM_PRICE) → c = amount * sampleConfig.NORMAL_ITEM_PRICE))) ∧
    ((∀ t, sampleSend.type = some t →
        t ≠ sampleConfig.FRAGILE ∧ t ≠ sampleConfig.BOOK ∧ t ≠ sampleConfig.NORMAL) →
      ∃ m, UserManage.sendItem sampleConfig sampleClock (aliceLoggedIn 8 100) (tokenOf "alice") sampleSend =
        some (aliceLoggedIn 8 100, .message m) ∧ m ≠ "")) :=
  ⟨by decide,
   sendItem_cost sampleConfig sampleClock (aliceLoggedIn 8 100) (tokenOf "alice") sampleSend (by decide)⟩

/-- C6, counterexample: a request of category BOOK (unit price 2 in the sample
configuration) with amount 2147483647 succeeds, and the cost charged is -2, not
2147483647 × 2. -/
theorem sendItem_cost_overflow :
    (UserManage.sendItem sampleConfig sampleClock (aliceLoggedIn 8 100) (tokenOf "alice")
      ⟨some "bob", some sampleConfig.BOOK, some 2147483647, some "box"⟩).map Prod.snd =
      some (.number (-2)) ∧
    (-2 : Int) ≠ 2147483647 * sampleConfig.BOOK_PRICE := by
  decide

/-- C1, at the failing input. The store of a first start holds the administrator with
balance 0; alice and bob register (balance 0 each) and alice logs in, so every
persisted balance is 0. Alice sends a request with amount -1 (cost -8): the call
succeeds and the persisted balance of ADMINISTRATOR becomes -8. Likewise, from the
store `sampleStore 1000000000 100`, whose balances lie in [0, 1000000000], her
request `sampleSend` (cost 8) takes the balance of ADMINISTRATOR to 1000000008. -/
theorem balance_bound_broken_by_sendItem :
    (∀ r ∈ aliceFirstLogin.db.user, 0 ≤ r.balance ∧ r.balance ≤ 1000000000) ∧
    (UserManage.sendItem sampleConfig sampleClock aliceFirstLogin (tokenOf "alice")
        ⟨some "bob", some sampleConfig.FRAGILE, some (-1), some "box"⟩).bind
        (fun r => r.1.db.queryBalanceByName "ADMINISTRATOR") =
      some (-8) ∧
    (∀ r ∈ (sampleStore 1000000000 100).user, 0 ≤ r.balance ∧ r.balance ≤ 1000000000) ∧
    (UserManage.sendItem sampleConfig sampleClock
        ((UserManage.start (sampleStore 1000000000 100)).login "alice" "pw1" ⟨none, none⟩).1
        (tokenOf "alice") sampleSend).bind (fun r => r.1.db.queryBalanceByName "ADMINISTRATOR") =
      some 1000000008 := by
  decide

/-! ## receiveItem -/

/-- The query with an id and every other field at its sentinel: all rows for id -1, the rows with that id otherwise. -/
theorem queryItemByFilter_id (db : Database) (id : Int) :
    db.queryItemByFilter id ⟨-1, -1, -1⟩ ⟨-1, -1, -1⟩ "" "" =
      if id = -1 then db.item else db.item.filter fun it => decide (it.id = id) := by
  unfold Database.queryItemByFilter
  by_cases h : id = -1
  · subst h
    simp [Database.filterWhere, Database.filterBinds, Item.satisfies]
  · rw [if_neg h]
    apply List.filter_congr
    intro it _
    simp [Database.filterWhere, Database.filterBinds, Item.satisfies, h, bindingOf, Item.column]
    constructor
    · intro e; exact e.symm
    · intro e; exact e.symm

/-- queryById returns the first row of the table for id -1, and the first row with the given id otherwise. -/
theorem queryById_eq (db : Database) (id : Int) :
    ItemManage.queryById db id =
      if id = -1 then db.item.head? else db.item.find? fun it => decide (it.id = id) := by
  unfold ItemManage.queryById
  rw [queryItemByFilter_id]
  by_cases h : id = -1
  · simp only [h, if_true]
    cases db.item <;> rfl
  · simp only [h, if_false]
    induction db.item with
    | nil => rfl
    | cons it rest ih =>
      rw [List.filter_cons, List.find?_cons]
      by_cases hi : it.id = id
      · simp [hi]
      · simp only [hi, decide_False, Bool.false_eq_true, if_false]
        exact ih

/-- The four updates of receiveItem amount to `markReceived` on every row. -/
theorem receive_update (db : Database) (id : Int) (today : Time) :
    (ItemManage.modifyReceivingTime (ItemManage.modifyState db id RECEIVED) id today).1 =
      { db with item := db.item.map (markReceived id today) } := by
  unfold ItemManage.modifyReceivingTime ItemManage.modifyState Database.modifyItemReceivingTime
    Database.modifyItemReceivingDay Database.modifyItemReceivingMonth Database.modifyItemReceivingYear
    Database.modifyItemState
  simp only [List.map_map]
  congr 1
  apply List.map_congr_left
  intro it _
  simp only [Function.comp, markReceived]
  by_cases h : it.id = id
  · simp [h]
  · simp [h]

/-- The last steps of receiveItem, for a verified customer and an id that queryById finds. -/
theorem receiveItem_eq (clk : Clock) {um : UserManage} {token : Token} {info : ReceiveInfo} {usr : User}
    {id : Int} {result : Item}
    (hv : um.verify token ≠ "") (husr : userMapValue um.userMap (um.verify token) = some usr)
    (hty : usr.type = CUSTOMER) (hid : info.id = some id)
    (hq : ItemManage.queryById um.db id = some result) :
    um.receiveItem clk token info =
      if result.dstName ≠ um.verify token then some (um, "这不是您的快递")
      else if !clk.isDue result.sendingTime then some (um, "该快递还未到达")
      else some ({ um with db := { um.db with item := um.db.item.map (markReceived id clk.today) } }, "") := by
  unfold UserManage.receiveItem
  simp only [hv, if_false, husr, hty, ne_eq, not_true_eq_false, hid, hq, receive_update]

/-- What a successful receiveItem has checked and done. -/
theorem receiveItem_ok {clk : Clock} {um um' : UserManage} {token : Token} {info : ReceiveInfo}
    (h : um.receiveItem clk token info = some (um', "")) :
    ∃ usr id result,
      um.verify token ≠ "" ∧ userMapValue um.userMap (um.verify token) = some usr ∧
      usr.type = CUSTOMER ∧ info.id = some id ∧ ItemManage.queryById um.db id = some result ∧
      result.dstName = um.verify token ∧ clk.isDue result.sendingTime = true ∧
      um' = { um with db := { um.db with item := um.db.item.map (markReceived id clk.today) } } := by
  unfold UserManage.receiveItem at h
  simp only at h
  split at h
  · exact absurd h (reply_ne (by decide))
  · rename_i hv
    split at h
    · cases h
    · rename_i usr husr
      split at h
      · exact absurd h (reply_ne (by decide))
      · rename_i hty
        split at h
        · exact absurd h (reply_ne (by decide))
        · rename_i id hid
          split at h
          · exact absurd h (reply_ne (by decide))
          · rename_i result hq
            split at h
            · exact absurd h (reply_ne (by decide))
            · rename_i hdst
              split at h
              · exact absurd h (reply_ne (by decide))
              · rename_i hdue
                rw [receive_update] at h
                injection h with h
                injection h with h _
                exact ⟨usr, id, result, hv, husr, by simpa using hty, hid, hq, by simpa using hdst,
                  by simpa using hdue, h.symm⟩

/-- receiveItem always returns, and a non-empty message comes with the unchanged state. -/
theorem receiveItem_returns (clk : Clock) (um : UserManage) (token : Token) (info : ReceiveInfo) :
    ∃ um' r, um.receiveItem clk token info = some (um', r) ∧ (r ≠ "" → um' = um) := by
  unfold UserManage.receiveItem
  simp only
  by_cases hv : um.verify token = ""
  · rw [if_pos hv]
    exact ⟨_, _, rfl, fun _ => rfl⟩
  · rw [if_neg hv]
    obtain ⟨usr, husr⟩ := verify_session hv
    rw [husr]
    simp only
    split
    · exact ⟨_, _, rfl, fun _ => rfl⟩
    · split
      · exact ⟨_, _, rfl, fun _ => rfl⟩
      · split
        · exact ⟨_, _, rfl, fun _ => rfl⟩
        · split
          · exact ⟨_, _, rfl, fun _ => rfl⟩
          · split
            · exact ⟨_, _, rfl, fun _ => rfl⟩
            · exact ⟨_, _, rfl, fun h => absurd rfl h⟩

/-- `markReceived` keeps the id. -/
theorem markReceived_id (id : Int) (today : Time) (it : Item) : (markReceived id today it).id = it.id := by
  unfold markReceived
  split <;> rfl

/-- `markReceived` keeps the recipient. -/
theorem markReceived_dstName (id : Int) (today : Time) (it : Item) :
    (markReceived id today it).dstName = it.dstName := by
  unfold markReceived
  split <;> rfl

/-- `markReceived` keeps the sending date. -/
theorem markReceived_sendingTime (id : Int) (today : Time) (it : Item) :
    (markReceived id today it).sendingTime = it.sendingTime := by
  unfold markReceived
  split <;> rfl

/-- For an id other than -1, the item found by queryById is stored and has that id. -/
theorem queryById_mem {db : Database} {id : Int} {result : Item} (h : ItemManage.queryById db id = some result)
    (hne : id ≠ -1) : result ∈ db.item ∧ result.id = id := by
  rw [queryById_eq, if_neg hne] at h
  exact ⟨List.mem_of_find?_eq_some h, by simpa using List.find?_some h⟩

/-- For an id other than -1, a successful receiveItem has a verified customer as
caller and finds a stored item with that id, addressed to the caller and due. -/
theorem receiveItem_success_conditions {clk : Clock} {um um' : UserManage} {token : Token}
    {info : ReceiveInfo} {id : Int}
    (h : um.receiveItem clk token info = some (um', "")) (hid : info.id = some id) (hne : id ≠ -1) :
    um.verify token ≠ "" ∧
    (∃ usr, userMapValue um.userMap (um.verify token) = some usr ∧ usr.type = CUSTOMER) ∧
    ∃ it ∈ um.db.item, it.id = id ∧ it.dstName = um.verify token ∧ clk.isDue it.sendingTime = true := by
  obtain ⟨usr, id2, result, hv, husr, hty, hid2, hq, hdst, hdue, -⟩ := receiveItem_ok h
  rw [hid] at hid2
  cases hid2
  obtain ⟨hmem, hrid⟩ := queryById_mem hq hne
  exact ⟨hv, ⟨usr, husr, hty⟩, result, hmem, hrid, hdst, hdue⟩

/-- C7, at the failing input. Bob is logged in and the store holds one item, with
id 1, addressed to him and due; no item has id -1. receiveItem with id -1 returns
the empty string (success) and leaves the store as it was. -/
theorem receiveItem_sentinel_id_succeeds :
    (bobLoggedIn 1 PENDING_REVEICING).receiveItem sampleClock (tokenOf "bob") ⟨some (-1)⟩ =
      some (bobLoggedIn 1 PENDING_REVEICING, "") ∧
    (bobLoggedIn 1 PENDING_REVEICING).db.item = [sampleItem 1 PENDING_REVEICING] ∧
    ∀ it ∈ (bobLoggedIn 1 PENDING_REVEICING).db.item, it.id ≠ -1 := by
  decide

/-- C8: a successful receiveItem names an id; afterwards every stored item with
that id has state RECEIVED and the current date as receiving date, its other fields
are unchanged and every other item is unchanged (the item table is the old one with
`markReceived` applied to each row); users, sessions and the id counter are
unchanged; and for an id other than -1 such an item is stored. -/
theorem receiveItem_marks_received (clk : Clock) (um um' : UserManage) (token : Token) (info : ReceiveInfo)
    (h : um.receiveItem clk token info = some (um', "")) :
    ∃ id, info.id = some id ∧
      um'.db.item = um.db.item.map (markReceived id clk.today) ∧
      (∀ it ∈ um'.db.item, it.id = id → it.state = RECEIVED ∧ it.receivingTime = clk.today) ∧
      (∀ it ∈ um.db.item, it.id = id →
        markReceived id clk.today it = { it with state := RECEIVED, receivingTime := clk.today }) ∧
      (∀ it ∈ um.db.item, it.id ≠ id → markReceived id clk.today it = it) ∧
      um'.db.user = um.db.user ∧ um'.userMap = um.userMap ∧ um'.itemManage = um.itemManage ∧
      (id ≠ -1 → ∃ it ∈ um'.db.item, it.id = id) := by
  obtain ⟨usr, id, result, hv, husr, hty, hid, hq, hdst, hdue, hum⟩ := receiveItem_ok h
  refine ⟨id, hid, by rw [hum], ?_, ?_, ?_, by rw [hum], by rw [hum], by rw [hum], ?_⟩
  · intro it hit hiid
    rw [hum] at hit
    simp only [List.mem_map] at hit
    obtain ⟨it0, -, rfl⟩ := hit
    rw [markReceived_id] at hiid
    simp [markReceived, hiid]
  · intro it _ hiid
    simp [markReceived, hiid]
  · intro it _ hiid
    simp [markReceived, hiid]
  · intro hne
    obtain ⟨hmem, hrid⟩ := queryById_mem hq hne
    refine ⟨markReceived id clk.today result, ?_, ?_⟩
    · rw [hum]
      exact List.mem_map_of_mem _ hmem
    · rw [markReceived_id, hrid]

/-! ## receiveItem: repeated calls -/

/-- Witness of C8: bob receives item 1 on the day of `sampleClock`. -/
theorem receiveItem_marks_received_witness :
    (bobLoggedIn 1 PENDING_REVEICING).receiveItem sampleClock (tokenOf "bob") ⟨some 1⟩ =
      some (bobReceived sampleClock.today, "") ∧
    ∃ id, (ReceiveInfo.mk (some 1)).id = some id ∧
      (bobReceived sampleClock.today).db.item =
        (bobLoggedIn 1 PENDING_REVEICING).db.item.map (markReceived id sampleClock.today) ∧
      (∀ it ∈ (bobReceived sampleClock.today).db.item, it.id = id →
        it.state = RECEIVED ∧ it.receivingTime = sampleClock.today) ∧
      (∀ it ∈ (bobLoggedIn 1 PENDING_REVEICING).db.item, it.id = id →
        markReceived id sampleClock.today it =
          { it with state := RECEIVED, receivingTime := sampleClock.today }) ∧
      (∀ it ∈ (bobLoggedIn 1 PENDING_REVEICING).db.item, it.id ≠ id →
        markReceived id sampleClock.today it = it) ∧
      (bobReceived sampleClock.today).db.user = (bobLoggedIn 1 PENDING_REVEICING).db.user ∧
      (bobReceived sampleClock.today).userMap = (bobLoggedIn 1 PENDING_REVEICING).userMap ∧
      (bobReceived sampleClock.today).itemManage = (bobLoggedIn 1 PENDING_REVEICING).itemManage ∧
      (id ≠ -1 → ∃ it ∈ (bobReceived sampleClock.today).db.item, it.id = id) :=
  ⟨by decide,
   receiveItem_marks_received sampleClock (bobLoggedIn 1 PENDING_REVEICING) (bobReceived sampleClock.today)
    (tokenOf "bob") ⟨some 1⟩ (by decide)⟩

/-- verify depends on the session map only. -/
theorem verify_congr {um um' : UserManage} (h : um'.userMap = um.userMap) (token : Token) :
    um'.verify token = um.verify token := by
  unfold UserManage.verify
  rw [h]

/-- queryById after `markReceived` on every row finds the updated version of the same row. -/
theorem queryById_markReceived (db : Database) (id id' : Int) (today : Time) :
    ItemManage.queryById { db with item := db.item.map (markReceived id today) } id' =
      (ItemManage.queryById db id').map (markReceived id today) := by
  rw [queryById_eq, queryById_eq]
  by_cases h : id' = -1
  · simp only [h, if_true]
    cases db.item <;> rfl
  · simp only [h, if_false]
    rw [List.find?_map]
    congr 2
    funext it
    simp only [Function.comp, markReceived_id]

/-- C9, counterexample: bob receives item 1 on 20 April 2022, and his second
receiveItem on the same id, on 25 April, again returns the empty string (success)
and sets the receiving date of the item, already in state RECEIVED, to 25 April. -/
theorem receiveItem_twice_succeeds :
    (bobLoggedIn 1 PENDING_REVEICING).receiveItem sampleClock (tokenOf "bob") ⟨some 1⟩ =
      some (bobReceived ⟨2022, 4, 20⟩, "") ∧
    (bobReceived ⟨2022, 4, 20⟩).receiveItem laterClock (tokenOf "bob") ⟨some 1⟩ =
      some (bobReceived ⟨2022, 4, 25⟩, "") ∧
    bobReceived ⟨2022, 4, 25⟩ ≠ bobReceived ⟨2022, 4, 20⟩ := by
  decide

/-- C9, as amended: receiveItem does not look at the state of the item. After a
successful receiveItem, a second call with the same credential and id, made when
every date that was due still is, succeeds again: it returns the empty string, the
items with that id keep state RECEIVED and their receiving date becomes the date of
the second call. -/
theorem receiveItem_again_succeeds (clk clk2 : Clock) (um um' : UserManage) (token : Token)
    (info : ReceiveInfo)
    (h : um.receiveItem clk token info = some (um', ""))
    (hdue : ∀ t, clk.isDue t = true → clk2.isDue t = true) :
    ∃ id um2, info.id = some id ∧ um'.receiveItem clk2 token info = some (um2, "") ∧
      um2.db.item = um'.db.item.map (markReceived id clk2.today) ∧
      (∀ it ∈ um2.db.item, it.id = id → it.state = RECEIVED ∧ it.receivingTime = clk2.today) := by
  obtain ⟨usr, id, result, hv, husr, hty, hid, hq, hdst, hdue1, hum⟩ := receiveItem_ok h
  have hmap : um'.userMap = um.userMap := by rw [hum]
  have hver : um'.verify token = um.verify token := verify_congr hmap token
  have hv' : um'.verify token ≠ "" := by rw [hver]; exact hv
  have husr' : userMapValue um'.userMap (um'.verify token) = some usr := by rw [hver, hmap]; exact husr
  have hq' : ItemManage.queryById um'.db id = some (markReceived id clk.today result) := by
    rw [hum]
    simp only
    rw [queryById_markReceived, hq]
    rfl
  have hres := receiveItem_eq clk2 hv' husr' hty hid hq'
  rw [markReceived_dstName, markReceived_sendingTime, hver, if_neg (by simpa using hdst),
    if_neg (by simpa using hdue _ hdue1)] at hres
  refine ⟨id, _, hid, hres, rfl, ?_⟩
  intro it hit hiid
  simp only [List.mem_map] at hit
  obtain ⟨it0, -, rfl⟩ := hit
  rw [markReceived_id] at hiid
  simp [markReceived, hiid]

/-- Witness of C9 as amended: bob's two calls, on 20 and on 25 April 2022. -/
theorem receiveItem_again_succeeds_witness :
    (bobLoggedIn 1 PENDING_REVEICING).receiveItem sampleClock (tokenOf "bob") ⟨some 1⟩ =
      some (bobReceived ⟨2022, 4, 20⟩, "") ∧
    (∀ t, sampleClock.isDue t = true → laterClock.isDue t = true) ∧
    ∃ id um2, (ReceiveInfo.mk (some 1)).id = some id ∧
      (bobReceived ⟨2022, 4, 20⟩).receiveItem laterClock (tokenOf "bob") ⟨some 1⟩ = some (um2, "") ∧
      um2.db.item = (bobReceived ⟨2022, 4, 20⟩).db.item.map (markReceived id laterClock.today) ∧
      (∀ it ∈ um2.db.item, it.id = id → it.state = RECEIVED ∧ it.receivingTime = laterClock.today) :=
  have hdue : ∀ t, sampleClock.isDue t = true → laterClock.isDue t = true := by
    intro t ht
    simp only [sampleClock, laterClock, decide_eq_true_eq] at ht ⊢
    omega
  ⟨by decide, hdue,
   receiveItem_again_succeeds sampleClock laterClock (bobLoggedIn 1 PENDING_REVEICING)
    (bobReceived ⟨2022, 4, 20⟩) (tokenOf "bob") ⟨some 1⟩ (by decide) hdue⟩

/-! ## Coherence of customer sessions

The conditions on the sender under which a send moves its cost (cached balance
equal to the persisted one, sender other than ADMINISTRATOR) hold in every coherent state,
and coherence is kept by every handler that changes the state. -/

/-- A balance update keeps the type of the account ADMINISTRATOR. -/
theorem adminTyped_modifyUserBalance {db : Database} (h : db.AdminTyped) (username : String) (balance : Int) :
    (db.modifyUserBalance username balance).AdminTyped := by
  intro r hr hname
  unfold Database.modifyUserBalance at hr
  simp only [List.mem_map] at hr
  obtain ⟨r0, hr0, rfl⟩ := hr
  by_cases hu : r0.username = username
  · simp only [hu, if_true] at hname ⊢
    exact h r0 hr0 (hu.trans hname)
  · simp only [hu, if_false] at hname ⊢
    exact h r0 hr0 hname

/-- `AdminTyped` depends on the user table only. -/
theorem adminTyped_congr {db1 db2 : Database} (h : db1.user = db2.user) (h2 : db2.AdminTyped) :
    db1.AdminTyped := by
  intro r hr
  rw [h] at hr
  exact h2 r hr

/-- A freshly started program is coherent. -/
theorem coherent_start {db : Database} (h : db.AdminTyped) : (UserManage.start db).Coherent := by
  refine ⟨h, ?_⟩
  intro u usr hu
  simp [UserManage.start, userMapValue] at hu

/-- Coherence depends on the session map and the user table only. -/
theorem coherent_of_same_sessions {um um' : UserManage} (h : um.Coherent)
    (hmap : um'.userMap = um.userMap) (hdb : um'.db.user = um.db.user) : um'.Coherent := by
  refine ⟨adminTyped_congr hdb h.1, ?_⟩
  intro u usr hu hty
  rw [hmap] at hu
  rw [queryBalanceByName_congr hdb]
  exact h.2 u usr hu hty

/-- In a coherent state a customer session is not the account ADMINISTRATOR and its
cached balance is the persisted one. -/
theorem coherent_sender {um : UserManage} {token : Token} {usr : User} (h : um.Coherent)
    (husr : userMapValue um.userMap (um.verify token) = some usr) (hty : usr.type = CUSTOMER) :
    um.verify token ≠ "ADMINISTRATOR" ∧ um.db.queryBalanceByName (um.verify token) = some usr.balance :=
  h.2 _ usr husr hty

/-- addBalance keeps coherence. -/
theorem coherent_addBalance {um um' : UserManage} {token : Token} {addend : Int} {r : String}
    (h : um.Coherent) (hres : um.addBalance token addend = some (um', r)) : um'.Coherent := by
  by_cases hr : r = ""
  · subst hr
    obtain ⟨usr, -, husr, -, -, -, -, hum⟩ := addBalance_ok hres
    rw [hum]
    refine ⟨adminTyped_modifyUserBalance h.1 _ _, ?_⟩
    intro u usr2 hu hty
    simp only [userMapValue_addBalance] at hu
    simp only [queryBalanceByName_modifyUserBalance]
    by_cases hk : u = um.verify token
    · subst hk
      rw [if_pos rfl, husr] at hu
      simp only [Option.map_some', Option.some.injEq] at hu
      subst hu
      have hc := h.2 _ usr husr hty
      rw [if_pos rfl, hc.2]
      exact ⟨hc.1, rfl⟩
    · rw [if_neg hk] at hu
      rw [if_neg hk]
      exact h.2 u usr2 hu hty
  · rw [addBalance_error hres hr]
    exact h

/-- transferBalance to ADMINISTRATOR keeps coherence. -/
theorem coherent_transferBalance {um um' : UserManage} {token : Token} {c : Int} {r : String}
    (h : um.Coherent) (hres : um.transferBalance token c "ADMINISTRATOR" = some (um', r)) :
    um'.Coherent := by
  by_cases hr : r = ""
  · subst hr
    obtain ⟨dstBalance, um1, -, -, -, hadd, hum⟩ := transferBalance_ok hres
    have h1 := coherent_addBalance h hadd
    rw [hum]
    refine ⟨adminTyped_modifyUserBalance h1.1 _ _, ?_⟩
    intro u usr hu hty
    have hc := h1.2 u usr hu hty
    simp only [queryBalanceByName_modifyUserBalance, if_neg hc.1]
    exact hc
  · rw [transferBalance_error hres hr]
    exact h

/-- sendItem keeps coherence. -/
theorem coherent_sendItem {cfg : Config} {clk : Clock} {um um' : UserManage} {token : Token}
    {info : SendInfo} {reply : Reply} (h : um.Coherent)
    (hres : UserManage.sendItem cfg clk um token info = some (um', reply)) : um'.Coherent := by
  cases reply with
  | message m =>
    rw [sendItem_error hres]
    exact h
  | number c =>
    obtain ⟨usr, dstName, type, amount, description, um1, -, -, -, -, -, htr, hum⟩ := sendItem_ok hres
    have h1 := coherent_transferBalance h htr
    apply coherent_of_same_sessions h1
    · rw [hum]
    · rw [hum]
      simp only [itemManage_insertItem_user]

/-- receiveItem keeps coherence. -/
theorem coherent_receiveItem {clk : Clock} {um um' : UserManage} {token : Token} {info : ReceiveInfo}
    {r : String} (h : um.Coherent) (hres : um.receiveItem clk token info = some (um', r)) :
    um'.Coherent := by
  by_cases hr : r = ""
  · subst hr
    obtain ⟨usr, id, result, -, -, -, -, -, -, -, hum⟩ := receiveItem_ok hres
    apply coherent_of_same_sessions h <;> rw [hum]
  · obtain ⟨um2, r2, h2, h3⟩ := receiveItem_returns clk um token info
    rw [hres] at h2
    injection h2 with h2
    injection h2 with h4 h5
    subst h4; subst h5
    rw [h3 hr]
    exact h

/-! ## Coherence: sessions and registration -/

/-- Lookup in a session map with one more entry at the end. -/
theorem userMapValue_append (m : List (String × User)) (k : String) (v : User) (u : String) :
    userMapValue (m ++ [(k, v)]) u =
      match userMapValue m u with
      | some x => some x
      | none => if k = u then some v else none := by
  induction m with
  | nil => simp [userMapValue]
  | cons p rest ih =>
    rw [List.cons_append, userMapValue_cons, userMapValue_cons, ih]
    by_cases hp : p.1 = u
    · simp [hp]
    · simp [hp]

/-- A session found after `logout` was there before. -/
theorem userMapValue_filter {m : List (String × User)} {username u : String} {usr : User}
    (h : userMapValue (m.filter fun p => decide (p.1 ≠ username)) u = some usr) :
    userMapValue m u = some usr := by
  induction m with
  | nil => simp [userMapValue] at h
  | cons p rest ih =>
    rw [List.filter_cons] at h
    rw [userMapValue_cons]
    by_cases hp : p.1 = username
    · simp only [hp, ne_eq, not_true_eq_false, decide_False, Bool.false_eq_true, if_false] at h
      have hrest := ih h
      by_cases hu : p.1 = u
      · exfalso
        have hmem : ∀ (l : List (String × User)),
            userMapValue (l.filter fun p => decide (p.1 ≠ username)) username = none := by
          intro l
          induction l with
          | nil => rfl
          | cons q l ihl =>
            rw [List.filter_cons]
            by_cases hq : q.1 = username
            · simp only [hq, ne_eq, not_true_eq_false, decide_False, Bool.false_eq_true, if_false]
              exact ihl
            · simp only [hq, ne_eq, not_false_eq_true, decide_True, if_true, userMapValue_cons, if_false]
              exact ihl
        rw [← hu, hp, hmem] at h
        cases h
      · rw [if_neg hu]
        exact hrest
    · simp only [hp, ne_eq, not_false_eq_true, decide_True, if_true, userMapValue_cons] at h
      by_cases hu : p.1 = u
      · rw [if_pos hu] at h ⊢
        exact h
      · rw [if_neg hu] at h ⊢
        exact ih h

/-- The row found for a username is stored and has that username. -/
theorem queryUserRow_mem {db : Database} {username : String} {r : UserRow}
    (h : db.queryUserRow username = some r) : r ∈ db.user ∧ r.username = username := by
  unfold Database.queryUserRow at h
  exact ⟨List.mem_of_find?_eq_some h, by simpa using List.find?_some h⟩

/-- logout keeps coherence. -/
theorem coherent_logout {um : UserManage} {token : Token} (h : um.Coherent) :
    (um.logout token).1.Coherent := by
  unfold UserManage.logout
  simp only
  split
  · exact h
  · refine ⟨h.1, ?_⟩
    intro u usr hu hty
    exact h.2 u usr (userMapValue_filter hu) hty

/-- Adding the session object built from the stored row keeps coherence. -/
theorem coherent_ensure {um : UserManage} {username : String} {r : UserRow} {type : Int} (h : um.Coherent)
    (hrow : um.db.queryUserRow username = some r) (hty : type = CUSTOMER → r.type = CUSTOMER) :
    UserManage.Coherent { um with userMap := userMapEnsure um.userMap username (User.ofRow username r type) } := by
  refine ⟨h.1, ?_⟩
  intro u usr hu hcust
  simp only at hu
  unfold userMapEnsure at hu
  cases hl : userMapValue um.userMap username with
  | some old =>
    rw [hl] at hu
    exact h.2 u usr hu hcust
  | none =>
    rw [hl] at hu
    simp only at hu
    rw [userMapValue_append] at hu
    cases hl2 : userMapValue um.userMap u with
    | some x =>
      rw [hl2] at hu
      simp only [Option.some.injEq] at hu
      subst hu
      exact h.2 u x hl2 hcust
    | none =>
      rw [hl2] at hu
      simp only at hu
      by_cases hk : username = u
      · rw [if_pos hk] at hu
        simp only [Option.some.injEq] at hu
        subst hk
        subst hu
        obtain ⟨hmem, hname⟩ := queryUserRow_mem hrow
        have hrt : r.type = CUSTOMER := hty hcust
        constructor
        · intro hadm
          exact h.1 r hmem (hname.trans hadm) hrt
        · unfold Database.queryBalanceByName
          rw [hrow]
          rfl
      · rw [if_neg hk] at hu
        cases hu

/-- login keeps coherence. -/
theorem coherent_login {um : UserManage} {username password : String} {token : Token} (h : um.Coherent) :
    (um.login username password token).1.Coherent := by
  unfold UserManage.login
  cases hrow : um.db.queryUserRow username with
  | none => exact h
  | some r =>
    simp only
    split
    · split
      · rename_i hc
        exact coherent_ensure h hrow (fun _ => hc)
      · split
        · exact coherent_ensure h hrow (fun e => absurd e (by decide))
        · exact h
    · exact h

/-- A row found before an insert is found after it. -/
theorem queryUserRow_append {db : Database} {username : String} {r x : UserRow}
    (h : db.queryUserRow username = some r) :
    Database.queryUserRow { db with user := db.user ++ [x] } username = some r := by
  unfold Database.queryUserRow at h ⊢
  rw [List.find?_append, h]
  rfl

/-- registerUser keeps coherence: a registered username has at most 10 code units, so it is not ADMINISTRATOR. -/
theorem coherent_registerUser {um : UserManage} {username password name phoneNumber address : String}
    {type : Int} (h : um.Coherent) :
    (um.registerUser username password type name phoneNumber address).1.Coherent := by
  unfold UserManage.registerUser
  split
  · exact h
  · rename_i hlen
    split
    · exact h
    · rename_i hq
      split
      · exact h
      · have hne : username ≠ "ADMINISTRATOR" := by
          intro e
          apply hlen
          right
          rw [e]
          decide
        have hdb : (um.db.insertUser username password type 0 name phoneNumber address) =
            { um.db with user := um.db.user ++ [⟨username, password, type, 0, name, phoneNumber, address⟩] } := by
          unfold Database.insertUser
          rw [if_neg hq]
        simp only [hdb]
        refine ⟨?_, ?_⟩
        · intro r hr hname
          simp only [List.mem_append, List.mem_singleton] at hr
          rcases hr with hr | hr
          · exact h.1 r hr hname
          · subst hr
            exact absurd hname hne
        · intro u usr hu hty
          have hc := h.2 u usr hu hty
          refine ⟨hc.1, ?_⟩
          unfold Database.queryBalanceByName at hc ⊢
          cases hrow : um.db.queryUserRow u with
          | none => rw [hrow] at hc; cases hc.2
          | some r =>
            rw [queryUserRow_append hrow]
            rw [hrow] at hc
            exact hc.2

/-! ## queryItemByFilter -/

/-- With a day or a month in one of the two dates, a row never satisfies the
statement: the placeholder of the day has no bound value. -/
theorem satisfies_date_group (it : Item) (id : Int) (st rt : Time) (src dst : String)
    (h : (st.day ≠ -1 ∨ st.month ≠ -1) ∨ (rt.day ≠ -1 ∨ rt.month ≠ -1)) :
    it.satisfies (Database.filterWhere id st rt src dst) (Database.filterBinds id st rt src dst) = false := by
  unfold Item.satisfies
  rw [List.all_eq_false]
  by_cases hs : st.day ≠ -1 ∨ st.month ≠ -1
  · refine ⟨("sendingTime_Day", ":sendingTime_Day"), ?_, ?_⟩
    · have hs2 : st.day ≠ -1 ∨ st.month ≠ -1 ∨ st.day ≠ -1 := by tauto
      simp [Database.filterWhere, hs2]
    · have hs2 : st.day ≠ -1 ∨ st.month ≠ -1 ∨ st.day ≠ -1 := by tauto
      have hb : bindingOf (Database.filterBinds id st rt src dst) ":sendingTime_Day" = none := by
        unfold Database.filterBinds
        by_cases h1 : id ≠ -1 <;>
        by_cases h2 : rt.day ≠ -1 ∨ rt.month ≠ -1 ∨ rt.day ≠ -1 <;>
        by_cases h3 : src ≠ "" <;>
        by_cases h4 : dst ≠ "" <;>
        simp [h1, h2, h3, h4, hs2, bindingOf]
      simp [hb]
  · have hr : rt.day ≠ -1 ∨ rt.month ≠ -1 := by tauto
    have hr2 : rt.day ≠ -1 ∨ rt.month ≠ -1 ∨ rt.day ≠ -1 := by tauto
    refine ⟨("receivingTime_Day", ":receivingTime_Day"), ?_, ?_⟩
    · simp [Database.filterWhere, hr2]
    · have hb : bindingOf (Database.filterBinds id st rt src dst) ":receivingTime_Day" = none := by
        unfold Database.filterBinds
        by_cases h1 : id ≠ -1 <;>
        by_cases h2 : st.day ≠ -1 ∨ st.month ≠ -1 ∨ st.day ≠ -1 <;>
        by_cases h3 : src ≠ "" <;>
        by_cases h4 : dst ≠ "" <;>
        simp [h1, h2, h3, h4, hr2, bindingOf]
      simp [hb]

/-- Without a day and a month in the two dates, a row satisfies the statement
exactly when it agrees with the id, the sender and the recipient that are present;
the years of the filter play no part. -/
theorem satisfies_no_date_group (it : Item) (id : Int) (st rt : Time) (src dst : String)
    (h : ¬ ((st.day ≠ -1 ∨ st.month ≠ -1) ∨ (rt.day ≠ -1 ∨ rt.month ≠ -1))) :
    it.satisfies (Database.filterWhere id st rt src dst) (Database.filterBinds id st rt src dst) =
      decide ((id = -1 ∨ it.id = id) ∧ (src = "" ∨ it.srcName = src) ∧ (dst = "" ∨ it.dstName = dst)) := by
  have hs : ¬ (st.day ≠ -1 ∨ st.month ≠ -1 ∨ st.day ≠ -1) := by tauto
  have hr : ¬ (rt.day ≠ -1 ∨ rt.month ≠ -1 ∨ rt.day ≠ -1) := by tauto
  unfold Item.satisfies Database.filterWhere Database.filterBinds
  rw [if_neg hs, if_neg hr, if_neg hs, if_neg hr]
  by_cases h1 : id = -1 <;> by_cases h3 : src = "" <;> by_cases h4 : dst = "" <;>
    simp [h1, h3, h4, bindingOf, Item.column, eq_comm]

/-- Database::queryItemByFilter, in closed form. -/
theorem queryItemByFilter_eq (db : Database) (id : Int) (st rt : Time) (src dst : String) :
    db.queryItemByFilter id st rt src dst =
      if (st.day ≠ -1 ∨ st.month ≠ -1) ∨ (rt.day ≠ -1 ∨ rt.month ≠ -1) then []
      else db.item.filter fun it =>
        decide ((id = -1 ∨ it.id = id) ∧ (src = "" ∨ it.srcName = src) ∧ (dst = "" ∨ it.dstName = dst)) := by
  unfold Database.queryItemByFilter
  by_cases h : (st.day ≠ -1 ∨ st.month ≠ -1) ∨ (rt.day ≠ -1 ∨ rt.month ≠ -1)
  · rw [if_pos h, List.filter_eq_nil_iff]
    intro it _
    rw [satisfies_date_group it id st rt src dst h]
    decide
  · rw [if_neg h]
    apply List.filter_congr
    intro it _
    exact satisfies_no_date_group it id st rt src dst h

/-! ## registerUser, login, verify -/

/-- C11, as amended: a registerUser that succeeds appends exactly one row to the user
table, with the given username, password, name, phone number and address, balance 0
and the type it was called with, which is any integer other than ADMINISTRATOR (the
type is stored as given, not set to CUSTOMER); sessions, items and the id counter
are unchanged. -/
theorem registerUser_row (um : UserManage) (username password : String) (type : Int)
    (name phoneNumber address : String)
    (h : (um.registerUser username password type name phoneNumber address).2 = "") :
    (um.registerUser username password type name phoneNumber address).1.db.user =
      um.db.user ++ [⟨username, password, type, 0, name, phoneNumber, address⟩] ∧
    type ≠ ADMINISTRATOR ∧
    (um.registerUser username password type name phoneNumber address).1.db.item = um.db.item ∧
    (um.registerUser username password type name phoneNumber address).1.userMap = um.userMap ∧
    (um.registerUser username password type name phoneNumber address).1.itemManage = um.itemManage := by
  unfold UserManage.registerUser at h ⊢
  split at h
  · simp at h
  · rename_i h1
    split at h
    · simp at h
    · rename_i h2
      split at h
      · simp at h
      · rename_i h3
        rw [if_neg h1, if_neg h2, if_neg h3]
        refine ⟨?_, h3, ?_, rfl, rfl⟩
        · simp only [Database.insertUser, if_neg h2]
        · simp only [Database.insertUser, if_neg h2]

/-- Witness of C11 as amended: bob registers with type 2 on the store of a first
start. -/
theorem registerUser_row_witness :
    ((UserManage.start freshStore).registerUser "bob" "pw2" 2 "bob" "10086" "Beijing").2 = "" ∧
    (((UserManage.start freshStore).registerUser "bob" "pw2" 2 "bob" "10086" "Beijing").1.db.user =
      (UserManage.start freshStore).db.user ++ [⟨"bob", "pw2", 2, 0, "bob", "10086", "Beijing"⟩] ∧
    (2 : Int) ≠ ADMINISTRATOR ∧
    ((UserManage.start freshStore).registerUser "bob" "pw2" 2 "bob" "10086" "Beijing").1.db.item =
      (UserManage.start freshStore).db.item ∧
    ((UserManage.start freshStore).registerUser "bob" "pw2" 2 "bob" "10086" "Beijing").1.userMap =
      (UserManage.start freshStore).userMap ∧
    ((UserManage.start freshStore).registerUser "bob" "pw2" 2 "bob" "10086" "Beijing").1.itemManage =
      (UserManage.start freshStore).itemManage) :=
  ⟨by decide,
   registerUser_row (UserManage.start freshStore) "bob" "pw2" 2 "bob" "10086" "Beijing" (by decide)⟩

/-- C11, counterexample: registerUser with type 2 succeeds on the store of a first
start, and the row it creates has type 2, not CUSTOMER. -/
theorem registerUser_keeps_type :
    ((UserManage.start freshStore).registerUser "bob" "pw2" 2 "bob" "10086" "Beijing").2 = "" ∧
    ((UserManage.start freshStore).registerUser "bob" "pw2" 2 "bob" "10086" "Beijing").1.db.queryUserRow "bob" =
      some ⟨"bob", "pw2", 2, 0, "bob", "10086", "Beijing"⟩ ∧
    (2 : Int) ≠ CUSTOMER := by
  decide

/-- C12, as amended: login returns the empty string exactly when a row with that
username is stored, its password equals the given one and its type is CUSTOMER or
ADMINISTRATOR; the credential then carries that username and the issuer, and
otherwise state and credential are the ones given. -/
theorem login_success_iff (um : UserManage) (username password : String) (token : Token) :
    ((um.login username password token).2.1 = "" ↔
      ∃ r, um.db.queryUserRow username = some r ∧ r.password = password ∧
        (r.type = CUSTOMER ∨ r.type = ADMINISTRATOR)) ∧
    ((um.login username password token).2.1 = "" →
      (um.login username password token).2.2 = ⟨some username, some "Haolin Yang"⟩) ∧
    ((um.login username password token).2.1 ≠ "" →
      (um.login username password token).1 = um ∧ (um.login username password token).2.2 = token) := by
  unfold UserManage.login
  cases hrow : um.db.queryUserRow username with
  | none =>
    dsimp only
    refine ⟨⟨fun h => by simp at h, ?_⟩, fun h => by simp at h, fun _ => ⟨rfl, rfl⟩⟩
    rintro ⟨r, hr, -⟩
    cases hr
  | some r =>
    simp only
    by_cases hp : r.password = password
    · rw [if_pos hp]
      by_cases hc : r.type = CUSTOMER
      · rw [if_pos hc]
        exact ⟨⟨fun _ => ⟨r, rfl, hp, Or.inl hc⟩, fun _ => rfl⟩, fun _ => rfl, fun h => absurd rfl h⟩
      · rw [if_neg hc]
        by_cases ha : r.type = ADMINISTRATOR
        · rw [if_pos ha]
          exact ⟨⟨fun _ => ⟨r, rfl, hp, Or.inr ha⟩, fun _ => rfl⟩, fun _ => rfl, fun h => absurd rfl h⟩
        · rw [if_neg ha]
          refine ⟨⟨fun h => by simp at h, ?_⟩, fun h => by simp at h, fun _ => ⟨rfl, rfl⟩⟩
          rintro ⟨r2, hr2, -, hty⟩
          cases hr2
          rcases hty with hty | hty
          · exact absurd hty hc
          · exact absurd hty ha
    · rw [if_neg hp]
      refine ⟨⟨fun h => by simp at h, ?_⟩, fun h => by simp at h, fun _ => ⟨rfl, rfl⟩⟩
      rintro ⟨r2, hr2, hp2, -⟩
      cases hr2
      exact absurd hp2 hp

/-- C12, counterexample: bob has registered with type 2; a row with his username is
stored and its password is the one he gives, yet login returns an error. -/
theorem login_refuses_other_type :
    ((UserManage.start freshStore).registerUser "bob" "pw2" 2 "bob" "10086" "Beijing").1.db.queryUserRow "bob" =
      some ⟨"bob", "pw2", 2, 0, "bob", "10086", "Beijing"⟩ ∧
    ((((UserManage.start freshStore).registerUser "bob" "pw2" 2 "bob" "10086" "Beijing").1.login
      "bob" "pw2" ⟨none, none⟩).2.1 = "数据库中用户类型错误") := by
  decide

/-- C14: verify returns the username of the credential when the credential has a
username, has the issuer "Haolin Yang" and the session map holds a user object for
that username, and the empty string in every other case. -/
theorem verify_spec (um : UserManage) (token : Token) :
    (∀ username, token.username = some username → token.iss = some "Haolin Yang" →
      (userMapValue um.userMap username).isSome = true → um.verify token = username) ∧
    (¬ (∃ username, token.username = some username ∧ token.iss = some "Haolin Yang" ∧
      (userMapValue um.userMap username).isSome = true) → um.verify token = "") := by
  unfold UserManage.verify
  constructor
  · intro username hu hi hs
    rw [hu, hi]
    cases hv : userMapValue um.userMap username with
    | none => rw [hv] at hs; cases hs
    | some usr => simp [hv]
  · intro hno
    cases hu : token.username with
    | none => rfl
    | some username =>
      simp only
      cases hv : userMapValue um.userMap username with
      | none => simp
      | some usr =>
        simp only [Option.isNone_some, Bool.false_eq_true, if_false]
        cases hi : token.iss with
        | none => rfl
        | some iss =>
          simp only
          by_cases hiss : iss = "Haolin Yang"
          · exfalso
            apply hno
            exact ⟨username, hu, by rw [hi, hiss], by rw [hv]; rfl⟩
          · simp [hiss]

/-! ## logout -/

/-- A credential that verifies carries the username that verify returns. -/
theorem verify_username {um : UserManage} {token : Token} (h : um.verify token ≠ "") :
    token.username = some (um.verify token) := by
  unfold UserManage.verify at h ⊢
  cases hu : token.username with
  | none => simp [hu] at h
  | some username =>
    simp only [hu] at h ⊢
    cases hv : userMapValue um.userMap username with
    | none => simp [hv] at h
    | some usr =>
      simp only [hv, Option.isNone_some, Bool.false_eq_true, if_false] at h ⊢
      cases hi : token.iss with
      | none => simp [hi] at h
      | some iss =>
        simp only [hi] at h ⊢
        by_cases hiss : iss ≠ "Haolin Yang"
        · simp [hiss] at h
        · simp only [hiss, if_false]

/-- Without a session object for the username it carries, a credential does not
verify. -/
theorem verify_without_session {um : UserManage} {token : Token} {username : String}
    (hu : token.username = some username) (hs : userMapValue um.userMap username = none) :
    um.verify token = "" := by
  unfold UserManage.verify
  rw [hu]
  simp [hs]

/-- After the removal of a username from the session map, its lookup is null. -/
theorem userMapValue_removed (m : List (String × User)) (username : String) :
    userMapValue (m.filter fun p => decide (p.1 ≠ username)) username = none := by
  induction m with
  | nil => rfl
  | cons q l ih =>
    rw [List.filter_cons]
    by_cases hq : q.1 = username
    · simp only [hq, ne_eq, not_true_eq_false, decide_False, Bool.false_eq_true, if_false]
      exact ih
    · simp only [hq, ne_eq, not_false_eq_true, decide_True, if_true, userMapValue_cons, if_false]
      exact ih

/-- A username without session has none after a logout. -/
theorem logout_keeps_absent {um : UserManage} {token : Token} {u : String}
    (h : userMapValue um.userMap u = none) : userMapValue (um.logout token).1.userMap u = none := by
  unfold UserManage.logout
  simp only
  split
  · exact h
  · simp only
    cases hl : userMapValue (um.userMap.filter fun p => decide (p.1 ≠ um.verify token)) u with
    | none => rfl
    | some usr =>
      rw [userMapValue_filter hl] at h
      cases h

/-- A login that returns an error leaves the state as it was. -/
theorem login_failed {um : UserManage} {username password : String} {token : Token}
    (h : (um.login username password token).2.1 ≠ "") : (um.login username password token).1 = um := by
  unfold UserManage.login at h ⊢
  cases hrow : um.db.queryUserRow username with
  | none => rfl
  | some r =>
    rw [hrow] at h
    simp only at h ⊢
    split
    · rename_i hp
      rw [if_pos hp] at h
      split
      · rename_i hc
        rw [if_pos hc] at h
        exact absurd rfl h
      · rename_i hc
        rw [if_neg hc] at h
        split
        · rename_i ha
          rw [if_pos ha] at h
          exact absurd rfl h
        · rfl
    · rfl

/-- A username without session has none after the login of another username, or
after a login that fails. -/
theorem login_keeps_absent {um : UserManage} {username password : String} {token : Token} {u : String}
    (h : userMapValue um.userMap u = none)
    (hno : ¬ (username = u ∧ (um.login username password token).2.1 = "")) :
    userMapValue (um.login username password token).1.userMap u = none := by
  by_cases hr : (um.login username password token).2.1 = ""
  · have hne : username ≠ u := fun e => hno ⟨e, hr⟩
    have key : ∀ usr, userMapValue (userMapEnsure um.userMap username usr) u = none := by
      intro usr
      unfold userMapEnsure
      cases hl : userMapValue um.userMap username with
      | some old => exact h
      | none =>
        simp only
        rw [userMapValue_append, h]
        simp [hne]
    unfold UserManage.login
    cases hrow : um.db.queryUserRow username with
    | none => exact h
    | some r =>
      simp only
      split
      · split
        · exact key _
        · split
          · exact key _
          · exact h
      · exact h
  · rw [login_failed hr]
    exact h

/-- addBalance gives no session to a username that has none. -/
theorem addBalance_keeps_absent {um um' : UserManage} {token : Token} {addend : Int} {r u : String}
    (hres : um.addBalance token addend = some (um', r)) (h : userMapValue um.userMap u = none) :
    userMapValue um'.userMap u = none := by
  by_cases hr : r = ""
  · subst hr
    obtain ⟨usr, -, -, -, -, -, -, hum⟩ := addBalance_ok hres
    rw [hum]
    simp only [userMapValue_addBalance, h]
    split <;> rfl
  · rw [addBalance_error hres hr]
    exact h

/-- sendItem gives no session to a username that has none. -/
theorem sendItem_keeps_absent {cfg : Config} {clk : Clock} {um um' : UserManage} {token : Token}
    {info : SendInfo} {reply : Reply} {u : String}
    (hres : UserManage.sendItem cfg clk um token info = some (um', reply))
    (h : userMapValue um.userMap u = none) : userMapValue um'.userMap u = none := by
  cases reply with
  | message m =>
    rw [sendItem_error hres]
    exact h
  | number c =>
    obtain ⟨usr, dstName, type, amount, description, um1, -, -, -, -, -, htr, hum⟩ := sendItem_ok hres
    obtain ⟨dstBalance, um0, -, -, -, hadd, hum1⟩ := transferBalance_ok htr
    have h0 := addBalance_keeps_absent hadd h
    rw [hum, hum1]
    exact h0

/-- receiveItem does not change the session map. -/
theorem receiveItem_userMap {clk : Clock} {um um' : UserManage} {token : Token} {info : ReceiveInfo}
    {r : String} (hres : um.receiveItem clk token info = some (um', r)) : um'.userMap = um.userMap := by
  by_cases hr : r = ""
  · subst hr
    obtain ⟨usr, id, result, -, -, -, -, -, -, -, hum⟩ := receiveItem_ok hres
    rw [hum]
  · obtain ⟨um2, r2, h2, h3⟩ := receiveItem_returns clk um token info
    rw [hres] at h2
    injection h2 with h2
    injection h2 with h4 h5
    subst h4; subst h5
    rw [h3 hr]

/-- One handler call that is not a successful login of a username gives it no
session. -/
theorem step_keeps_absent {cfg : Config} {um um' : UserManage} {op : Op} {u : String}
    (hstep : um.step cfg op = some um') (hno : ¬ op.LogsIn um u)
    (h : userMapValue um.userMap u = none) : userMapValue um'.userMap u = none := by
  cases op with
  | registerUser username password type name phoneNumber address =>
    simp only [UserManage.step, Option.some.injEq] at hstep
    subst hstep
    unfold UserManage.registerUser
    split
    · exact h
    · split
      · exact h
      · split
        · exact h
        · exact h
  | login username password token =>
    simp only [UserManage.step, Option.some.injEq] at hstep
    subst hstep
    apply login_keeps_absent h
    rintro ⟨rfl, hs⟩
    exact hno ⟨password, token, rfl, hs⟩
  | logout token =>
    simp only [UserManage.step, Option.some.injEq] at hstep
    subst hstep
    exact logout_keeps_absent h
  | changePassword token newPassword =>
    simp only [UserManage.step, Option.some.injEq] at hstep
    subst hstep
    unfold UserManage.changePassword
    simp only
    split <;> exact h
  | getUserInfo token =>
    simp only [UserManage.step, Option.map_eq_some'] at hstep
    obtain ⟨_, -, rfl⟩ := hstep
    exact h
  | queryAllUserInfo token =>
    simp only [UserManage.step, Option.map_eq_some'] at hstep
    obtain ⟨_, -, rfl⟩ := hstep
    exact h
  | addBalance token addend =>
    simp only [UserManage.step, Option.map_eq_some'] at hstep
    obtain ⟨⟨um1, r⟩, hres, rfl⟩ := hstep
    exact addBalance_keeps_absent hres h
  | queryItem token filter =>
    simp only [UserManage.step, Option.map_eq_some'] at hstep
    obtain ⟨_, -, rfl⟩ := hstep
    exact h
  | sendItem clk token info =>
    simp only [UserManage.step, Option.map_eq_some'] at hstep
    obtain ⟨⟨um1, r⟩, hres, rfl⟩ := hstep
    exact sendItem_keeps_absent hres h
  | receiveItem clk token info =>
    simp only [UserManage.step, Option.map_eq_some'] at hstep
    obtain ⟨⟨um1, r⟩, hres, rfl⟩ := hstep
    rw [receiveItem_userMap hres]
    exact h

/-- An execution without a successful login of a username gives it no session. -/
theorem steps_keep_absent {cfg : Config} {um um' : UserManage} {u : String}
    (hsteps : StepsWithoutLogin cfg u um um') (h : userMapValue um.userMap u = none) :
    userMapValue um'.userMap u = none := by
  induction hsteps with
  | refl => exact h
  | tail op _ hstep hno ih => exact step_keeps_absent hstep hno ih

/-- What the handlers that test the result of verify return for a credential that
does not verify. -/
theorem unverified_refused (cfg : Config) {um : UserManage} {token : Token} (hv : um.verify token = "") :
    (∀ addend, ∃ m, um.addBalance token addend = some (um, m) ∧ m ≠ "") ∧
    um.logout token = (um, "验证失败") ∧
    (∀ newPassword, um.changePassword token newPassword = (um, "验证失败")) ∧
    um.getUserInfo token = some ("验证失败", none) ∧
    um.queryAllUserInfo token = some ("验证失败", []) ∧
    (∀ clk info, UserManage.sendItem cfg clk um token info = some (um, .message "验证失败")) ∧
    (∀ clk info, um.receiveItem clk token info = some (um, "验证失败")) := by
  refine ⟨?_, ?_, ?_, ?_, ?_, ?_, ?_⟩
  · intro addend
    by_cases h1 : addend > 1000000000 ∨ addend < -1000000000
    · exact ⟨_, addBalance_too_large h1, by decide⟩
    · exact ⟨_, addBalance_unverified h1 hv, by decide⟩
  · unfold UserManage.logout
    simp only [hv, if_true]
  · intro newPassword
    unfold UserManage.changePassword
    simp only [hv, if_true]
  · unfold UserManage.getUserInfo
    simp only [hv, if_true]
  · unfold UserManage.queryAllUserInfo
    simp only [hv, if_true]
  · intro clk info
    unfold UserManage.sendItem
    simp only [hv, if_true]
  · intro clk info
    unfold UserManage.receiveItem
    simp only [hv, if_true]

/-- C13: after a logout that succeeds on a credential, and after any further
handler calls among which that username does not log in again, verify returns the
empty string for the credential, and every handler that tests the result of verify
(addBalance, logout, changePassword, getUserInfo, queryAllUserInfo, sendItem,
receiveItem) returns an error and leaves the state as it is. -/
theorem logout_revokes_credential (cfg : Config) (um um2 : UserManage) (token : Token)
    (hout : (um.logout token).2 = "")
    (hsteps : StepsWithoutLogin cfg (um.verify token) (um.logout token).1 um2) :
    um2.verify token = "" ∧
    (∀ addend, ∃ m, um2.addBalance token addend = some (um2, m) ∧ m ≠ "") ∧
    um2.logout token = (um2, "验证失败") ∧
    (∀ newPassword, um2.changePassword token newPassword = (um2, "验证失败")) ∧
    um2.getUserInfo token = some ("验证失败", none) ∧
    um2.queryAllUserInfo token = some ("验证失败", []) ∧
    (∀ clk info, UserManage.sendItem cfg clk um2 token info = some (um2, .message "验证失败")) ∧
    (∀ clk info, um2.receiveItem clk token info = some (um2, "验证失败")) := by
  have hv : um.verify token ≠ "" := by
    intro hv
    unfold UserManage.logout at hout
    simp [hv] at hout
  have hgone : userMapValue (um.logout token).1.userMap (um.verify token) = none := by
    unfold UserManage.logout
    simp only [hv, if_false]
    exact userMapValue_removed _ _
  have h2 := steps_keep_absent hsteps hgone
  have hv2 : um2.verify token = "" := verify_without_session (verify_username hv) h2
  exact ⟨hv2, unverified_refused cfg hv2⟩

/-- Witness of C13: alice logs out; then bob logs in and a login of alice with a wrong
password fails. -/
theorem logout_revokes_credential_witness :
    ((aliceLoggedIn 8 100).logout (tokenOf "alice")).2 = "" ∧
    StepsWithoutLogin sampleConfig ((aliceLoggedIn 8 100).verify (tokenOf "alice"))
      ((aliceLoggedIn 8 100).logout (tokenOf "alice")).1 bobAfterAlice ∧
    (bobAfterAlice.verify (tokenOf "alice") = "" ∧
    (∀ addend, ∃ m, bobAfterAlice.addBalance (tokenOf "alice") addend = some (bobAfterAlice, m) ∧ m ≠ "") ∧
    bobAfterAlice.logout (tokenOf "alice") = (bobAfterAlice, "验证失败") ∧
    (∀ newPassword, bobAfterAlice.changePassword (tokenOf "alice") newPassword = (bobAfterAlice, "验证失败")) ∧
    bobAfterAlice.getUserInfo (tokenOf "alice") = some ("验证失败", none) ∧
    bobAfterAlice.queryAllUserInfo (tokenOf "alice") = some ("验证失败", []) ∧
    (∀ clk info, UserManage.sendItem sampleConfig clk bobAfterAlice (tokenOf "alice") info =
      some (bobAfterAlice, .message "验证失败")) ∧
    (∀ clk info, bobAfterAlice.receiveItem clk (tokenOf "alice") info = some (bobAfterAlice, "验证失败"))) :=
  have hsteps : StepsWithoutLogin sampleConfig ((aliceLoggedIn 8 100).verify (tokenOf "alice"))
      ((aliceLoggedIn 8 100).logout (tokenOf "alice")).1 bobAfterAlice := by
    refine StepsWithoutLogin.tail (Op.login "alice" "wrong" ⟨none, none⟩)
      (StepsWithoutLogin.tail (Op.login "bob" "pw2" ⟨none, none⟩) (StepsWithoutLogin.refl _) rfl ?_) ?_ ?_
    · rintro ⟨password, token, heq, -⟩
      injection heq with h1 _ _
      exact absurd h1 (by decide)
    · decide
    · rintro ⟨password, token, heq, hs⟩
      injection heq with h1 h2 h3
      subst h2; subst h3
      rw [← h1] at hs
      exact absurd hs (by decide)
  ⟨by decide, hsteps,
   logout_revokes_credential sampleConfig (aliceLoggedIn 8 100) _ (tokenOf "alice") (by decide) hsteps⟩

/-! ## queryItem -/

/-- C15, at the failing input. Nobody is logged in and the store holds one item. The
credential of alice does not verify, yet queryItem with a filter of type 1, and
likewise of type 2, returns the empty string (success) together with the stored item;
with a filter of type 0 the program stops on the null session pointer. -/
theorem queryItem_unverified_lists_items :
    (UserManage.start itemStore).verify (tokenOf "alice") = "" ∧
    (UserManage.start itemStore).queryItem (tokenOf "alice") (typeFilter 1) =
      some ("", [sampleItem 1 PENDING_REVEICING]) ∧
    (UserManage.start itemStore).queryItem (tokenOf "alice") (typeFilter 2) =
      some ("", [sampleItem 1 PENDING_REVEICING]) ∧
    (UserManage.start itemStore).queryItem (tokenOf "alice") (typeFilter 0) = none := by
  decide

/-- C17, as amended: for a filter in which no part of either date is set, the result
of queryByFilter is exactly the list of the stored items, in table order, that
agree with the id, the srcName and the dstName that are present; a field at its
sentinel (-1 for the id, the empty string for a name) imposes no constraint, so the
filter with no field present, and queryAll, return all items; the count returned is
the length of that list. -/
theorem queryByFilter_without_dates (db : Database) (id : Int) (srcName dstName : String) :
    ItemManage.queryByFilter db id ⟨-1, -1, -1⟩ ⟨-1, -1, -1⟩ srcName dstName =
      (db.item.filter fun it =>
        decide ((id = -1 ∨ it.id = id) ∧ (srcName = "" ∨ it.srcName = srcName) ∧
          (dstName = "" ∨ it.dstName = dstName))) ∧
    ItemManage.queryByFilter db (-1) ⟨-1, -1, -1⟩ ⟨-1, -1, -1⟩ "" "" = db.item ∧
    ItemManage.queryAll db = db.item := by
  unfold ItemManage.queryByFilter ItemManage.queryAll
  rw [queryItemByFilter_eq, queryItemByFilter_eq]
  refine ⟨?_, ?_, ?_⟩
  · rw [if_neg (by decide)]
  · rw [if_neg (by decide)]
    simp
  · rw [if_neg (by decide)]
    simp

/-- C17, counterexample: the store holds one item, sent on 10 April 2022. The
filter whose only field is the sending month 4 returns nothing, although the item
agrees with the one field that is present. -/
theorem queryByFilter_month_only :
    itemStore.item = [sampleItem 1 PENDING_REVEICING] ∧
    (sampleItem 1 PENDING_REVEICING).sendingTime.month = 4 ∧
    ItemManage.queryByFilter itemStore (-1) ⟨-1, 4, -1⟩ ⟨-1, -1, -1⟩ "" "" = [] := by
  decide

/-- C18, at the failing input. The store holds one item, sent by alice on 10 April
2022. The filter with srcName alice and the sending year 1999 (month and day not
set) returns that item, whose sending year is 2022. -/
theorem queryByFilter_year_ignored :
    ItemManage.queryByFilter itemStore (-1) ⟨1999, -1, -1⟩ ⟨-1, -1, -1⟩ "alice" "" =
      [sampleItem 1 PENDING_REVEICING] ∧
    (sampleItem 1 PENDING_REVEICING).srcName = "alice" ∧
    (sampleItem 1 PENDING_REVEICING).sendingTime.year = 2022 := by
  decide

/-! ## Item ids -/

/-- The fold of getDBMaxId is at least its start value and at least every id. -/
theorem foldl_max_ge (l : List Item) (m : Int) :
    m ≤ l.foldl (fun m x => max m x.id) m ∧ ∀ x ∈ l, x.id ≤ l.foldl (fun m x => max m x.id) m := by
  induction l generalizing m with
  | nil => exact ⟨le_refl m, fun x hx => by cases hx⟩
  | cons y rest ih =>
    rw [List.foldl_cons]
    obtain ⟨h1, h2⟩ := ih (max m y.id)
    refine ⟨le_trans (le_max_left _ _) h1, ?_⟩
    intro x hx
    rw [List.mem_cons] at hx
    rcases hx with rfl | hx
    · exact le_trans (le_max_right _ _) h1
    · exact h2 x hx

/-- The fold of getDBMaxId is its start value or one of the ids. -/
theorem foldl_max_mem (l : List Item) (m : Int) :
    l.foldl (fun m x => max m x.id) m = m ∨ ∃ x ∈ l, x.id = l.foldl (fun m x => max m x.id) m := by
  induction l generalizing m with
  | nil => exact Or.inl rfl
  | cons y rest ih =>
    rw [List.foldl_cons]
    rcases ih (max m y.id) with h | ⟨x, hx, hxe⟩
    · rw [h]
      rcases max_choice m y.id with hm | hm
      · exact Or.inl hm
      · exact Or.inr ⟨y, List.mem_cons_self _ _, hm.symm⟩
    · exact Or.inr ⟨x, List.mem_cons_of_mem _ hx, hxe⟩

/-- getDBMaxId is 0 for an empty item table, and otherwise the largest id stored. -/
theorem getDBMaxId_spec (db : Database) :
    (db.item = [] → db.getDBMaxId = 0) ∧ (∀ it ∈ db.item, it.id ≤ db.getDBMaxId) ∧
    (db.item ≠ [] → ∃ it ∈ db.item, it.id = db.getDBMaxId) := by
  obtain ⟨users, items⟩ := db
  unfold Database.getDBMaxId
  cases items with
  | nil => exact ⟨fun _ => rfl, fun it hit => (by cases hit), fun h => absurd rfl h⟩
  | cons y rest =>
    simp only
    obtain ⟨h1, h2⟩ := foldl_max_ge rest y.id
    refine ⟨fun h => (by cases h), ?_, fun _ => ?_⟩
    · intro it hit
      rw [List.mem_cons] at hit
      rcases hit with rfl | hit
      · exact h1
      · exact h2 it hit
    · rcases foldl_max_mem rest y.id with h | ⟨x, hx, hxe⟩
      · exact ⟨y, List.mem_cons_self _ _, h.symm⟩
      · exact ⟨x, List.mem_cons_of_mem _ hx, hxe⟩

/-- An empty sequence has no insertItem call. -/
theorem inserts_nil : ItemOp.inserts [] = 0 := rfl

/-- Counting the insertItem calls, one call at a time. -/
theorem inserts_cons (op : ItemOp) (rest : List ItemOp) :
    ItemOp.inserts (op :: rest) =
      ItemOp.inserts rest + (match op with
        | .insertItem _ _ _ _ _ _ _ _ => 1
        | _ => 0) := by
  unfold ItemOp.inserts
  cases op <;> simp [List.filter_cons]

/-- The ids of the rows after one call on the item store are ids that were there,
or the id of the row inserted. -/
theorem apply_ids {im : ItemManage} {db : Database} {op : ItemOp} {it : Item}
    (h : it ∈ (im.apply db op).2.1.item) :
    (∃ it0 ∈ db.item, it0.id = it.id) ∨ (im.apply db op).2.2 = some it.id := by
  cases op with
  | insertItem cost state type st rt src dst desc =>
    simp only [ItemManage.apply, ItemManage.insertItem, Database.insertItem] at h ⊢
    split at h
    · exact Or.inl ⟨it, h, rfl⟩
    · simp only [List.mem_append, List.mem_singleton] at h
      rcases h with h | h
      · exact Or.inl ⟨it, h, rfl⟩
      · right
        rw [h]
  | modifyState id state =>
    left
    simp only [ItemManage.apply, ItemManage.modifyState, Database.modifyItemState, List.mem_map] at h
    obtain ⟨it0, h0, rfl⟩ := h
    refine ⟨it0, h0, ?_⟩
    split <;> rfl
  | modifyReceivingTime id t =>
    left
    simp only [ItemManage.apply, ItemManage.modifyReceivingTime, Database.modifyItemReceivingTime,
      Database.modifyItemReceivingDay, Database.modifyItemReceivingMonth, Database.modifyItemReceivingYear,
      List.map_map, List.mem_map] at h
    obtain ⟨it0, h0, rfl⟩ := h
    refine ⟨it0, h0, ?_⟩
    simp only [Function.comp]
    by_cases hi : it0.id = id
    · simp [hi]
    · simp [hi]
  | deleteItem id =>
    left
    simp only [ItemManage.apply, ItemManage.deleteItem, Database.deleteItem, List.mem_filter] at h
    exact ⟨it, h.1, rfl⟩

/-- The counter and the returned id of one call on the item store. -/
theorem apply_total (im : ItemManage) (db : Database) (op : ItemOp) :
    (im.apply db op).1.total =
      (match op with
        | .insertItem _ _ _ _ _ _ _ _ => wrapInt (im.total + 1)
        | _ => im.total) ∧
    (im.apply db op).2.2 =
      (match op with
        | .insertItem _ _ _ _ _ _ _ _ => some (wrapInt (im.total + 1))
        | _ => none) := by
  cases op <;> exact ⟨rfl, rfl⟩

/-- A sequence of calls on the item store, started with a counter that is at least
every stored id and that the insertItem calls do not take past the largest int:
the counter ends at its start value plus the number of insertItem calls, it is
still at least every stored id, and the ids returned are the next integers in
order. -/
theorem run_spec (ops : List ItemOp) (im : ItemManage) (db : Database)
    (hinv : ∀ it ∈ db.item, it.id ≤ im.total) (hlo : -2147483648 ≤ im.total)
    (hfit : im.total + ItemOp.inserts ops ≤ 2147483647) :
    (ItemManage.run ops im db).1.total = im.total + ItemOp.inserts ops ∧
    (∀ it ∈ (ItemManage.run ops im db).2.1.item, it.id ≤ im.total + ItemOp.inserts ops) ∧
    (ItemManage.run ops im db).2.2 = (List.range (ItemOp.inserts ops)).map fun (j : Nat) => im.total + 1 + (j : Int) := by
  induction ops generalizing im db with
  | nil =>
    simp only [ItemManage.run, inserts_nil, Nat.cast_zero, add_zero, List.range_zero, List.map_nil]
    exact ⟨trivial, hinv, trivial⟩
  | cons op rest ih =>
    rw [inserts_cons] at hfit ⊢
    obtain ⟨ht, hid⟩ := apply_total im db op
    have hinv1 : ∀ it ∈ (im.apply db op).2.1.item, it.id ≤ (im.apply db op).1.total := by
      intro it hit
      rcases apply_ids hit with ⟨it0, h0, he⟩ | he
      · have := hinv it0 h0
        rw [ht, ← he]
        cases op <;> simp only <;> first | exact this | (unfold wrapInt; simp only at hfit; omega)
      · rw [hid] at he
        rw [ht]
        cases op <;> simp only at he ⊢ <;> first | (injection he with he; omega) | cases he
    cases op with
    | insertItem cost state type st rt src dst desc =>
      simp only at ht hid hfit ⊢
      have hw : wrapInt (im.total + 1) = im.total + 1 := by unfold wrapInt; omega
      rw [hw] at ht hid
      have hlo1 : -2147483648 ≤ (im.apply db (.insertItem cost state type st rt src dst desc)).1.total := by
        rw [ht]; omega
      have hfit1 : (im.apply db (.insertItem cost state type st rt src dst desc)).1.total +
          ItemOp.inserts rest ≤ 2147483647 := by
        rw [ht]; push_cast at hfit; omega
      obtain ⟨h1, h2, h3⟩ := ih _ _ hinv1 hlo1 hfit1
      simp only [ItemManage.run]
      rw [h1, h3, hid, ht]
      refine ⟨by push_cast; omega, ?_, ?_⟩
      · intro it hit
        have := h2 it hit
        rw [ht] at this
        push_cast
        omega
      · rw [List.range_succ_eq_map, List.map_cons, List.map_map]
        simp only [Option.toList, List.singleton_append, Nat.cast_zero, add_zero, List.cons.injEq, true_and]
        apply List.map_congr_left
        intro j _
        simp only [Function.comp, Nat.succ_eq_add_one]
        push_cast
        omega
    | modifyState id state =>
      simp only at ht hid hfit ⊢
      have hfit1 : (im.apply db (.modifyState id state)).1.total + ItemOp.inserts rest ≤ 2147483647 := by
        rw [ht]; simpa using hfit
      obtain ⟨h1, h2, h3⟩ := ih _ _ hinv1 (by rw [ht]; exact hlo) hfit1
      simp only [ItemManage.run]
      rw [h1, h3, hid, ht]
      refine ⟨by simp, ?_, by simp [Option.toList]⟩
      intro it hit
      have := h2 it hit
      rw [ht] at this
      simpa using this
    | modifyReceivingTime id t =>
      simp only at ht hid hfit ⊢
      have hfit1 : (im.apply db (.modifyReceivingTime id t)).1.total + ItemOp.inserts rest ≤ 2147483647 := by
        rw [ht]; simpa using hfit
      obtain ⟨h1, h2, h3⟩ := ih _ _ hinv1 (by rw [ht]; exact hlo) hfit1
      simp only [ItemManage.run]
      rw [h1, h3, hid, ht]
      refine ⟨by simp, ?_, by simp [Option.toList]⟩
      intro it hit
      have := h2 it hit
      rw [ht] at this
      simpa using this
    | deleteItem id =>
      simp only at ht hid hfit ⊢
      have hfit1 : (im.apply db (.deleteItem id)).1.total + ItemOp.inserts rest ≤ 2147483647 := by
        rw [ht]; simpa using hfit
      obtain ⟨h1, h2, h3⟩ := ih _ _ hinv1 (by rw [ht]; exact hlo) hfit1
      simp only [ItemManage.run]
      rw [h1, h3, hid, ht]
      refine ⟨by simp, ?_, by simp [Option.toList]⟩
      intro it hit
      have := h2 it hit
      rw [ht] at this
      simpa using this

/-- C20: for an ItemManage constructed over a store whose largest item id is M (0
for an empty table), after any calls on the item store of which k are insertItem
calls, done in any order with deletions and updates, the ids returned so far are
M + 1, ..., M + k in this order, and the next insertItem returns M + (k + 1), which is
larger than every id returned before, than every id stored at that moment and than
every id of the original store. The ids are C++ ints: M is one, and M + (k + 1) does
not exceed 2147483647. -/
theorem insertItem_returns_next_id (db : Database) (ops : List ItemOp) (cost state type : Int)
    (sendingTime receivingTime : Time) (srcName dstName description : String)
    (hM : IsInt32 db.getDBMaxId)
    (hfit : db.getDBMaxId + ((ItemOp.inserts ops : Int) + 1) ≤ 2147483647) :
    (db.item = [] → db.getDBMaxId = 0) ∧
    (∀ it ∈ db.item, it.id ≤ db.getDBMaxId) ∧
    (db.item ≠ [] → ∃ it ∈ db.item, it.id = db.getDBMaxId) ∧
    (ItemManage.run ops (ItemManage.new db) db).2.2 =
      (List.range (ItemOp.inserts ops)).map (fun (j : Nat) => db.getDBMaxId + 1 + (j : Int)) ∧
    ((ItemManage.run ops (ItemManage.new db) db).1.insertItem (ItemManage.run ops (ItemManage.new db) db).2.1
      cost state type sendingTime receivingTime srcName dstName description).2.2 =
      db.getDBMaxId + ((ItemOp.inserts ops : Int) + 1) ∧
    (∀ id ∈ (ItemManage.run ops (ItemManage.new db) db).2.2,
      id < db.getDBMaxId + ((ItemOp.inserts ops : Int) + 1)) ∧
    (∀ it ∈ (ItemManage.run ops (ItemManage.new db) db).2.1.item,
      it.id < db.getDBMaxId + ((ItemOp.inserts ops : Int) + 1)) ∧
    (∀ it ∈ db.item, it.id < db.getDBMaxId + ((ItemOp.inserts ops : Int) + 1)) := by
  obtain ⟨hempty, hmax, hmem⟩ := getDBMaxId_spec db
  unfold IsInt32 at hM
  have hfit0 : (ItemManage.new db).total + ItemOp.inserts ops ≤ 2147483647 := by
    show db.getDBMaxId + _ ≤ _
    omega
  obtain ⟨h1, h2, h3⟩ := run_spec ops (ItemManage.new db) db hmax hM.1 hfit0
  have ht : (ItemManage.new db).total = db.getDBMaxId := rfl
  rw [ht] at h1 h2 h3
  refine ⟨hempty, hmax, hmem, h3, ?_, ?_, ?_, ?_⟩
  · simp only [ItemManage.insertItem, h1]
    unfold wrapInt
    omega
  · intro id hid
    rw [h3] at hid
    simp only [List.mem_map, List.mem_range] at hid
    obtain ⟨j, hj, rfl⟩ := hid
    omega
  · intro it hit
    have := h2 it hit
    omega
  · intro it hit
    have := hmax it hit
    omega

/-- Witness of C20: the store holds one item, with id 1; an insertItem, the deletion
of item 1 and a second insertItem return the ids 2 and 3, and the next insertItem
returns 4. -/
theorem insertItem_returns_next_id_witness :
    IsInt32 itemStore.getDBMaxId ∧
    itemStore.getDBMaxId + ((ItemOp.inserts sampleItemOps : Int) + 1) ≤ 2147483647 ∧
    ((itemStore.item = [] → itemStore.getDBMaxId = 0) ∧
    (∀ it ∈ itemStore.item, it.id ≤ itemStore.getDBMaxId) ∧
    (itemStore.item ≠ [] → ∃ it ∈ itemStore.item, it.id = itemStore.getDBMaxId) ∧
    (ItemManage.run sampleItemOps (ItemManage.new itemStore) itemStore).2.2 =
      (List.range (ItemOp.inserts sampleItemOps)).map (fun (j : Nat) => itemStore.getDBMaxId + 1 + (j : Int)) ∧
    ((ItemManage.run sampleItemOps (ItemManage.new itemStore) itemStore).1.insertItem
      (ItemManage.run sampleItemOps (ItemManage.new itemStore) itemStore).2.1
      8 2 1 ⟨2022, 4, 20⟩ ⟨-1, -1, -1⟩ "alice" "bob" "bag").2.2 =
      itemStore.getDBMaxId + ((ItemOp.inserts sampleItemOps : Int) + 1) ∧
    (∀ id ∈ (ItemManage.run sampleItemOps (ItemManage.new itemStore) itemStore).2.2,
      id < itemStore.getDBMaxId + ((ItemOp.inserts sampleItemOps : Int) + 1)) ∧
    (∀ it ∈ (ItemManage.run sampleItemOps (ItemManage.new itemStore) itemStore).2.1.item,
      it.id < itemStore.getDBMaxId + ((ItemOp.inserts sampleItemOps : Int) + 1)) ∧
    (∀ it ∈ itemStore.item, it.id < itemStore.getDBMaxId + ((ItemOp.inserts sampleItemOps : Int) + 1))) :=
  ⟨by decide, by decide,
   insertItem_returns_next_id itemStore sampleItemOps 8 2 1 ⟨2022, 4, 20⟩ ⟨-1, -1, -1⟩ "alice" "bob" "bag"
    (by decide) (by decide)⟩

/-- One call on the item store keeps the ids of the item table pairwise different:
an insert with an id that is taken is refused. -/
theorem apply_nodup {im : ItemManage} {db : Database} (op : ItemOp)
    (h : (db.item.map Item.id).Nodup) : ((im.apply db op).2.1.item.map Item.id).Nodup := by
  cases op with
  | insertItem cost state type st rt src dst desc =>
    simp only [ItemManage.apply, ItemManage.insertItem, Database.insertItem]
    split
    · exact h
    · rename_i hfree
      simp only [List.map_append, List.map_cons, List.map_nil]
      rw [List.nodup_append]
      refine ⟨h, List.nodup_singleton _, ?_⟩
      intro a ha hb
      rw [List.mem_singleton] at hb
      subst hb
      apply hfree
      rw [List.any_eq_true]
      rw [List.mem_map] at ha
      obtain ⟨it, hit, hid⟩ := ha
      exact ⟨it, hit, by simpa using hid⟩
  | modifyState id state =>
    simp only [ItemManage.apply, ItemManage.modifyState, Database.modifyItemState, List.map_map]
    have : (Item.id ∘ fun it : Item => if it.id = id then { it with state := state } else it) = Item.id := by
      funext it
      simp only [Function.comp]
      split <;> rfl
    rw [this]
    exact h
  | modifyReceivingTime id t =>
    simp only [ItemManage.apply, ItemManage.modifyReceivingTime, Database.modifyItemReceivingTime,
      Database.modifyItemReceivingDay, Database.modifyItemReceivingMonth, Database.modifyItemReceivingYear,
      List.map_map]
    have : ∀ it ∈ db.item, (Item.id ∘ ((fun it : Item =>
        if it.id = id then { it with receivingTime := { it.receivingTime with day := t.day } } else it) ∘
        (fun it : Item =>
        if it.id = id then { it with receivingTime := { it.receivingTime with month := t.month } } else it) ∘
        fun it : Item =>
        if it.id = id then { it with receivingTime := { it.receivingTime with year := t.year } } else it)) it =
        Item.id it := by
      intro it _
      simp only [Function.comp]
      by_cases hi : it.id = id
      · simp [hi]
      · simp [hi]
    rw [List.map_congr_left this]
    exact h
  | deleteItem id =>
    simp only [ItemManage.apply, ItemManage.deleteItem, Database.deleteItem]
    exact h.sublist ((List.filter_sublist _).map _)

/-- A sequence of calls on the item store keeps the ids pairwise different. -/
theorem run_nodup (ops : List ItemOp) (im : ItemManage) (db : Database)
    (h : (db.item.map Item.id).Nodup) : ((ItemManage.run ops im db).2.1.item.map Item.id).Nodup := by
  induction ops generalizing im db with
  | nil => exact h
  | cons op rest ih =>
    simp only [ItemManage.run]
    exact ih _ _ (apply_nodup op h)

/-- With pairwise different ids, at most one row has a given id. -/
theorem filter_id_length {l : List Item} (h : (l.map Item.id).Nodup) (n : Int) :
    (l.filter fun it => decide (it.id = n)).length ≤ 1 := by
  induction l with
  | nil => simp
  | cons y rest ih =>
    rw [List.map_cons, List.nodup_cons] at h
    rw [List.filter_cons]
    by_cases hy : y.id = n
    · have hnone : (rest.filter fun it => decide (it.id = n)) = [] := by
        rw [List.filter_eq_nil_iff]
        intro it hit
        simp only [decide_eq_true_eq]
        intro hin
        apply h.1
        rw [hy, ← hin]
        exact List.mem_map_of_mem _ hit
      simp [hy, hnone]
    · simp only [hy, decide_False, Bool.false_eq_true, if_false]
      exact ih h.2

/-- With pairwise different ids, the first row with a given id is the row with that
id. -/
theorem find_id {l : List Item} (h : (l.map Item.id).Nodup) {it : Item} (hit : it ∈ l) :
    l.find? (fun x => decide (x.id = it.id)) = some it := by
  induction l with
  | nil => cases hit
  | cons y rest ih =>
    rw [List.map_cons, List.nodup_cons] at h
    rw [List.find?_cons]
    rw [List.mem_cons] at hit
    rcases hit with rfl | hit
    · simp
    · have hy : ¬ y.id = it.id := by
        intro e
        apply h.1
        rw [e]
        exact List.mem_map_of_mem _ hit
      simp only [hy, decide_False]
      exact ih h.2 hit

/-- C19: in a store reached from one whose item ids are pairwise different (the
primary key) by calls of a single ItemManage, for every id n other than -1 the query
with only id = n returns at most one item, and any item it returns is stored and has
id n; queryById(n) returns the stored item with id n when there is one, and returns
false when no stored item has id n. -/
theorem queryById_unique (db0 : Database) (ops : List ItemOp) (n : Int)
    (hpk : (db0.item.map Item.id).Nodup) (hn : n ≠ -1) :
    (ItemManage.queryByFilter (ItemManage.run ops (ItemManage.new db0) db0).2.1 n
      ⟨-1, -1, -1⟩ ⟨-1, -1, -1⟩ "" "").length ≤ 1 ∧
    (∀ it ∈ ItemManage.queryByFilter (ItemManage.run ops (ItemManage.new db0) db0).2.1 n
      ⟨-1, -1, -1⟩ ⟨-1, -1, -1⟩ "" "",
      it ∈ (ItemManage.run ops (ItemManage.new db0) db0).2.1.item ∧ it.id = n) ∧
    (∀ it ∈ (ItemManage.run ops (ItemManage.new db0) db0).2.1.item, it.id = n →
      ItemManage.queryById (ItemManage.run ops (ItemManage.new db0) db0).2.1 n = some it) ∧
    ((∀ it ∈ (ItemManage.run ops (ItemManage.new db0) db0).2.1.item, it.id ≠ n) →
      ItemManage.queryById (ItemManage.run ops (ItemManage.new db0) db0).2.1 n = none) := by
  have hnodup := run_nodup ops (ItemManage.new db0) db0 hpk
  generalize (ItemManage.run ops (ItemManage.new db0) db0).2.1 = db at hnodup ⊢
  unfold ItemManage.queryByFilter
  rw [queryItemByFilter_id, if_neg hn]
  refine ⟨filter_id_length hnodup n, ?_, ?_, ?_⟩
  · intro it hit
    rw [List.mem_filter] at hit
    exact ⟨hit.1, by simpa using hit.2⟩
  · intro it hit hid
    rw [queryById_eq, if_neg hn, ← hid]
    exact find_id hnodup hit
  · intro hnone
    rw [queryById_eq, if_neg hn, List.find?_eq_none]
    intro it hit
    simpa using hnone it hit

/-- Witness of C19: after the sample calls on the sample store, for id 3. -/
theorem queryById_unique_witness :
    (itemStore.item.map Item.id).Nodup ∧ (3 : Int) ≠ -1 ∧
    ((ItemManage.queryByFilter (ItemManage.run sampleItemOps (ItemManage.new itemStore) itemStore).2.1 3
      ⟨-1, -1, -1⟩ ⟨-1, -1, -1⟩ "" "").length ≤ 1 ∧
    (∀ it ∈ ItemManage.queryByFilter (ItemManage.run sampleItemOps (ItemManage.new itemStore) itemStore).2.1 3
      ⟨-1, -1, -1⟩ ⟨-1, -1, -1⟩ "" "",
      it ∈ (ItemManage.run sampleItemOps (ItemManage.new itemStore) itemStore).2.1.item ∧ it.id = 3) ∧
    (∀ it ∈ (ItemManage.run sampleItemOps (ItemManage.new itemStore) itemStore).2.1.item, it.id = 3 →
      ItemManage.queryById (ItemManage.run sampleItemOps (ItemManage.new itemStore) itemStore).2.1 3 = some it) ∧
    ((∀ it ∈ (ItemManage.run sampleItemOps (ItemManage.new itemStore) itemStore).2.1.item, it.id ≠ 3) →
      ItemManage.queryById (ItemManage.run sampleItemOps (ItemManage.new itemStore) itemStore).2.1 3 = none)) :=
  ⟨by decide, by decide, queryById_unique itemStore sampleItemOps 3 (by decide) (by decide)⟩

/-! ## deleteItem -/

/-- ItemManage::deleteItem is Database::deleteItem with a statement that runs. -/
theorem deleteItem_eq_exec (db : Database) (id : Int) :
    ItemManage.deleteItem db id = db.deleteItemExec id true := rfl

/-- The value deleteItem returns is the negation of the outcome of the statement. -/
theorem deleteItemExec_flag (db : Database) (id : Int) (execOk : Bool) :
    (db.deleteItemExec id execOk).2 = !execOk := by
  cases execOk <;> rfl

/-- After a delete statement that ran, queryById finds no item with that id. -/
theorem queryById_deleteItem (db : Database) (id : Int) (hne : id ≠ -1) :
    ItemManage.queryById (ItemManage.deleteItem db id).1 id = none := by
  rw [queryById_eq, if_neg hne]
  simp only [ItemManage.deleteItem, Database.deleteItem]
  rw [List.find?_eq_none]
  intro it hit
  rw [List.mem_filter] at hit
  simpa using hit.2

/-- C21, at the failing input. The store holds one item, with id 1. deleteItem on id
1 removes the row (the delete succeeds: the table is empty afterwards and queryById
finds nothing) and returns false. When the statement fails the table still holds the
item, queryById finds it, and deleteItem returns true. -/
theorem deleteItem_returns_false_on_success :
    ItemManage.deleteItem itemStore 1 = (⟨itemStore.user, []⟩, false) ∧
    ItemManage.queryById (ItemManage.deleteItem itemStore 1).1 1 = none ∧
    itemStore.deleteItemExec 1 true = ItemManage.deleteItem itemStore 1 ∧
    itemStore.deleteItemExec 1 false = (itemStore, true) ∧
    ItemManage.queryById (itemStore.deleteItemExec 1 false).1 1 = some (sampleItem 1 PENDING_REVEICING) := by
  decide

/-! ## transferBalance: a debit that fails -/

/-- A recipient that queryUserByName finds has a persisted balance. -/
theorem queryBalanceByName_of_found {db : Database} {username : String}
    (h : db.queryUserByName username = true) : ∃ b, db.queryBalanceByName username = some b := by
  rw [queryUserByName_eq] at h
  unfold Database.queryBalanceByName
  cases hrow : db.queryUserRow username with
  | none => rw [hrow] at h; cases h
  | some r => exact ⟨r.balance, rfl⟩

/-- C23: when the amount is within the range transferBalance accepts, the recipient
exists and the recipient guards pass, so that the debit step addBalance(token,
-amount) is reached, and that step returns an error, then transferBalance returns
the same error together with the state it was called on: the persisted balance of
the recipient, that of the sender and everything else are unchanged. -/
theorem transferBalance_debit_error (um um1 : UserManage) (token : Token) (amount : Int)
    (dstUser ret : String)
    (hrange : -1000000000 < amount ∧ amount < 1000000000)
    (hdst : um.db.queryUserByName dstUser = true)
    (hguard : qstringGeChar (qstringPlusInt dstUser amount) (qcharOfInt 1000000000) = false)
    (hdebit : um.addBalance token (-amount) = some (um1, ret)) (hret : ret ≠ "") :
    um.transferBalance token amount dstUser = some (um, ret) ∧
    ∀ um2 r, um.transferBalance token amount dstUser = some (um2, r) →
      r = ret ∧ um2.db.queryBalanceByName dstUser = um.db.queryBalanceByName dstUser ∧
      um2.db.queryBalanceByName (um.verify token) = um.db.queryBalanceByName (um.verify token) := by
  have hneg : wrapInt (-amount) = -amount := by unfold wrapInt; omega
  have hum1 : um1 = um := addBalance_error hdebit hret
  subst hum1
  obtain ⟨b, hb⟩ := queryBalanceByName_of_found hdst
  have key : um1.transferBalance token amount dstUser = some (um1, ret) := by
    unfold UserManage.transferBalance
    rw [if_neg (by omega)]
    simp only [hdst, Bool.not_true, Bool.false_eq_true, if_false, hb, hguard, guard_negative, hneg, hdebit,
      hret, ne_eq, not_false_eq_true, if_true]
  refine ⟨key, ?_⟩
  intro um2 r h
  rw [key] at h
  injection h with h
  injection h with h1 h2
  subst h1; subst h2
  exact ⟨rfl, rfl, rfl⟩

/-- Witness of C23: alice, whose balance is 100, is to pay 200 to the administrator;
the debit is refused because her balance would become negative. -/
theorem transferBalance_debit_error_witness :
    (-1000000000 < (200 : Int) ∧ (200 : Int) < 1000000000) ∧
    (aliceLoggedIn 8 100).db.queryUserByName "ADMINISTRATOR" = true ∧
    (aliceLoggedIn 8 100).addBalance (tokenOf "alice") (-200) = some (aliceLoggedIn 8 100, "余额不能为负") ∧
    ((aliceLoggedIn 8 100).transferBalance (tokenOf "alice") 200 "ADMINISTRATOR" =
        some (aliceLoggedIn 8 100, "余额不能为负") ∧
      ∀ um2 r, (aliceLoggedIn 8 100).transferBalance (tokenOf "alice") 200 "ADMINISTRATOR" = some (um2, r) →
        r = "余额不能为负" ∧
        um2.db.queryBalanceByName "ADMINISTRATOR" = (aliceLoggedIn 8 100).db.queryBalanceByName "ADMINISTRATOR" ∧
        um2.db.queryBalanceByName ((aliceLoggedIn 8 100).verify (tokenOf "alice")) =
          (aliceLoggedIn 8 100).db.queryBalanceByName ((aliceLoggedIn 8 100).verify (tokenOf "alice"))) :=
  ⟨by decide, by decide, by decide,
   transferBalance_debit_error (aliceLoggedIn 8 100) (aliceLoggedIn 8 100) (tokenOf "alice") 200
    "ADMINISTRATOR" "余额不能为负" (by decide) (by decide) (guard_high_administrator 200) (by decide)
    (by decide)⟩

/-! ## Received is terminal -/

/-- registerUser does not touch the item table. -/
theorem registerUser_item (um : UserManage) (username password : String) (type : Int)
    (name phoneNumber address : String) :
    (um.registerUser username password type name phoneNumber address).1.db.item = um.db.item := by
  unfold UserManage.registerUser
  split
  · rfl
  · split
    · rfl
    · split
      · rfl
      · simp only [Database.insertUser]
        split <;> rfl

/-- login does not touch the store. -/
theorem login_db (um : UserManage) (username password : String) (token : Token) :
    (um.login username password token).1.db = um.db := by
  unfold UserManage.login
  cases um.db.queryUserRow username with
  | none => rfl
  | some r =>
    simp only
    split
    · split
      · rfl
      · split <;> rfl
    · rfl

/-- logout does not touch the store. -/
theorem logout_db (um : UserManage) (token : Token) : (um.logout token).1.db = um.db := by
  unfold UserManage.logout
  simp only
  split <;> rfl

/-- changePassword does not touch the item table. -/
theorem changePassword_item (um : UserManage) (token : Token) (newPassword : String) :
    (um.changePassword token newPassword).1.db.item = um.db.item := by
  unfold UserManage.changePassword
  simp only
  split <;> rfl

/-- The item table after sendItem is the table before it, or that table followed
by one row. -/
theorem sendItem_items {cfg : Config} {clk : Clock} {um um' : UserManage} {token : Token}
    {info : SendInfo} {reply : Reply}
    (hres : UserManage.sendItem cfg clk um token info = some (um', reply)) :
    ∃ rest, um'.db.item = um.db.item ++ rest := by
  cases reply with
  | message m =>
    rw [sendItem_error hres]
    exact ⟨[], (List.append_nil _).symm⟩
  | number c =>
    obtain ⟨usr, dstName, type, amount, description, um1, -, -, -, -, -, htr, hum⟩ := sendItem_ok hres
    obtain ⟨hitems, -⟩ := transferBalance_keeps_items htr
    rw [hum]
    simp only [ItemManage.insertItem, Database.insertItem]
    split
    · exact ⟨[], by rw [hitems, List.append_nil]⟩
    · exact ⟨_, by rw [hitems]⟩

/-- The item table after receiveItem is the table before it, or that table with
`markReceived` applied to each row. -/
theorem receiveItem_items {clk : Clock} {um um' : UserManage} {token : Token} {info : ReceiveInfo}
    {r : String} (hres : um.receiveItem clk token info = some (um', r)) :
    um'.db.item = um.db.item ∨ ∃ id, um'.db.item = um.db.item.map (markReceived id clk.today) := by
  by_cases hr : r = ""
  · subst hr
    obtain ⟨usr, id, result, -, -, -, -, -, -, -, hum⟩ := receiveItem_ok hres
    exact Or.inr ⟨id, by rw [hum]⟩
  · obtain ⟨um2, r2, h2, h3⟩ := receiveItem_returns clk um token info
    rw [hres] at h2
    injection h2 with h2
    injection h2 with h4 h5
    subst h4; subst h5
    rw [h3 hr]
    exact Or.inl rfl

/-- `markReceived` leaves a row in state RECEIVED in that state. -/
theorem markReceived_state (id : Int) (today : Time) (it : Item) (h : it.state = RECEIVED) :
    (markReceived id today it).state = RECEIVED := by
  unfold markReceived
  split
  · rfl
  · exact h

/-- One handler call keeps every row that is in state RECEIVED at its place in the
item table, with its id and in state RECEIVED. -/
theorem step_keeps_received {cfg : Config} {um um' : UserManage} {op : Op}
    (hstep : um.step cfg op = some um') (i : Nat) (it : Item)
    (hit : um.db.item[i]? = some it) (hstate : it.state = RECEIVED) :
    ∃ it2, um'.db.item[i]? = some it2 ∧ it2.id = it.id ∧ it2.state = RECEIVED := by
  have same : um'.db.item = um.db.item →
      ∃ it2, um'.db.item[i]? = some it2 ∧ it2.id = it.id ∧ it2.state = RECEIVED := by
    intro h
    rw [h]
    exact ⟨it, hit, rfl, hstate⟩
  cases op with
  | registerUser username password type name phoneNumber address =>
    simp only [UserManage.step, Option.some.injEq] at hstep
    subst hstep
    exact same (registerUser_item _ _ _ _ _ _ _)
  | login username password token =>
    simp only [UserManage.step, Option.some.injEq] at hstep
    subst hstep
    exact same (by rw [login_db])
  | logout token =>
    simp only [UserManage.step, Option.some.injEq] at hstep
    subst hstep
    exact same (by rw [logout_db])
  | changePassword token newPassword =>
    simp only [UserManage.step, Option.some.injEq] at hstep
    subst hstep
    exact same (changePassword_item _ _ _)
  | getUserInfo token =>
    simp only [UserManage.step, Option.map_eq_some'] at hstep
    obtain ⟨_, -, rfl⟩ := hstep
    exact same rfl
  | queryAllUserInfo token =>
    simp only [UserManage.step, Option.map_eq_some'] at hstep
    obtain ⟨_, -, rfl⟩ := hstep
    exact same rfl
  | addBalance token addend =>
    simp only [UserManage.step, Option.map_eq_some'] at hstep
    obtain ⟨⟨um1, r⟩, hres, rfl⟩ := hstep
    exact same (addBalance_keeps_items hres).1
  | queryItem token filter =>
    simp only [UserManage.step, Option.map_eq_some'] at hstep
    obtain ⟨_, -, rfl⟩ := hstep
    exact same rfl
  | sendItem clk token info =>
    simp only [UserManage.step, Option.map_eq_some'] at hstep
    obtain ⟨⟨um1, r⟩, hres, rfl⟩ := hstep
    obtain ⟨rest, hrest⟩ := sendItem_items hres
    refine ⟨it, ?_, rfl, hstate⟩
    simp only
    rw [hrest, List.getElem?_append_left (List.getElem?_eq_some.mp hit).1]
    exact hit
  | receiveItem clk token info =>
    simp only [UserManage.step, Option.map_eq_some'] at hstep
    obtain ⟨⟨um1, r⟩, hres, rfl⟩ := hstep
    rcases receiveItem_items hres with h | ⟨id, h⟩
    · exact same h
    · refine ⟨markReceived id clk.today it, ?_, markReceived_id _ _ _, markReceived_state _ _ _ hstate⟩
      simp only
      rw [h, List.getElem?_map, hit]
      rfl

/-- C22: in every execution of handler calls (registerUser, login, logout,
changePassword, getUserInfo, queryAllUserInfo, addBalance, queryItem, sendItem,
receiveItem, in any number and order), a row of the item table that is in state
RECEIVED before the execution is, after it, still at its place in the table, with
the same id and in state RECEIVED. -/
theorem received_is_terminal (cfg : Config) (ops : List Op) (um um2 : UserManage)
    (hrun : um.run cfg ops = some um2) (i : Nat) (it : Item)
    (hit : um.db.item[i]? = some it) (hstate : it.state = RECEIVED) :
    ∃ it2, um2.db.item[i]? = some it2 ∧ it2.id = it.id ∧ it2.state = RECEIVED := by
  induction ops generalizing um it with
  | nil =>
    simp only [UserManage.run, Option.some.injEq] at hrun
    subst hrun
    exact ⟨it, hit, rfl, hstate⟩
  | cons op rest ih =>
    simp only [UserManage.run, Option.bind_eq_some] at hrun
    obtain ⟨um1, hstep, hrest⟩ := hrun
    obtain ⟨it1, hit1, hid1, hstate1⟩ := step_keeps_received hstep i it hit hstate
    obtain ⟨it2, hit2, hid2, hstate2⟩ := ih um1 hrest it1 hit1 hstate1
    exact ⟨it2, hit2, hid2.trans hid1, hstate2⟩

/-- Witness of C22: item 1, received by bob on 20 April 2022, after he has received
it once more, added to his balance and logged out. -/
theorem received_is_terminal_witness :
    (bobReceived ⟨2022, 4, 20⟩).run sampleConfig afterReceiveOps = some afterReceive ∧
    (bobReceived ⟨2022, 4, 20⟩).db.item[0]? =
      some ⟨1, 8, RECEIVED, ⟨2022, 4, 10⟩, ⟨2022, 4, 20⟩, "alice", "bob", "box"⟩ ∧
    ∃ it2, afterReceive.db.item[0]? = some it2 ∧ it2.id = 1 ∧ it2.state = RECEIVED :=
  ⟨by decide, by decide,
   received_is_terminal sampleConfig afterReceiveOps (bobReceived ⟨2022, 4, 20⟩) afterReceive (by decide) 0
    ⟨1, 8, RECEIVED, ⟨2022, 4, 10⟩, ⟨2022, 4, 20⟩, "alice", "bob", "box"⟩ (by decide) (by decide)⟩

/-! ## The cached balance and the persisted balance -/

/-- A password update does not change a persisted balance. -/
theorem queryBalanceByName_modifyUserPassword (db : Database) (username password key : String) :
    (db.modifyUserPassword username password).queryBalanceByName key = db.queryBalanceByName key := by
  unfold Database.queryBalanceByName Database.queryUserRow Database.modifyUserPassword
  simp only
  induction db.user with
  | nil => rfl
  | cons r rest ih =>
    have hname : (if r.username = username then { r with password := password } else r).username =
        r.username := by split <;> rfl
    have hbal : (if r.username = username then { r with password := password } else r).balance =
        r.balance := by split <;> rfl
    rw [List.map_cons, List.find?_cons, List.find?_cons, hname]
    by_cases hk : r.username = key
    · have hd : decide (r.username = key) = true := by simp [hk]
      rw [hd]
      simp only [Option.map_some', hbal]
    · have hd : decide (r.username = key) = false := by simp [hk]
      rw [hd]
      exact ih

/-- A password update keeps the type of the account ADMINISTRATOR. -/
theorem adminTyped_modifyUserPassword {db : Database} (h : db.AdminTyped) (username password : String) :
    (db.modifyUserPassword username password).AdminTyped := by
  intro r hr hname
  unfold Database.modifyUserPassword at hr
  simp only [List.mem_map] at hr
  obtain ⟨r0, hr0, rfl⟩ := hr
  by_cases hu : r0.username = username
  · simp only [hu, if_true] at hname ⊢
    exact h r0 hr0 (hu.trans hname)
  · simp only [hu, if_false] at hname ⊢
    exact h r0 hr0 hname

/-- changePassword keeps coherence. -/
theorem coherent_changePassword {um : UserManage} {token : Token} {newPassword : String}
    (h : um.Coherent) : (um.changePassword token newPassword).1.Coherent := by
  unfold UserManage.changePassword
  simp only
  split
  · exact h
  · refine ⟨adminTyped_modifyUserPassword h.1 _ _, ?_⟩
    intro u usr hu hty
    simp only at hu ⊢
    rw [queryBalanceByName_modifyUserPassword]
    exact h.2 u usr hu hty

/-- One handler call keeps coherence. -/
theorem coherent_step {cfg : Config} {um um' : UserManage} {op : Op} (h : um.Coherent)
    (hstep : um.step cfg op = some um') : um'.Coherent := by
  cases op with
  | registerUser username password type name phoneNumber address =>
    simp only [UserManage.step, Option.some.injEq] at hstep
    subst hstep
    exact coherent_registerUser h
  | login username password token =>
    simp only [UserManage.step, Option.some.injEq] at hstep
    subst hstep
    exact coherent_login h
  | logout token =>
    simp only [UserManage.step, Option.some.injEq] at hstep
    subst hstep
    exact coherent_logout h
  | changePassword token newPassword =>
    simp only [UserManage.step, Option.some.injEq] at hstep
    subst hstep
    exact coherent_changePassword h
  | getUserInfo token =>
    simp only [UserManage.step, Option.map_eq_some'] at hstep
    obtain ⟨_, -, rfl⟩ := hstep
    exact h
  | queryAllUserInfo token =>
    simp only [UserManage.step, Option.map_eq_some'] at hstep
    obtain ⟨_, -, rfl⟩ := hstep
    exact h
  | addBalance token addend =>
    simp only [UserManage.step, Option.map_eq_some'] at hstep
    obtain ⟨⟨um1, r⟩, hres, rfl⟩ := hstep
    exact coherent_addBalance h hres
  | queryItem token filter =>
    simp only [UserManage.step, Option.map_eq_some'] at hstep
    obtain ⟨_, -, rfl⟩ := hstep
    exact h
  | sendItem clk token info =>
    simp only [UserManage.step, Option.map_eq_some'] at hstep
    obtain ⟨⟨um1, r⟩, hres, rfl⟩ := hstep
    exact coherent_sendItem h hres
  | receiveItem clk token info =>
    simp only [UserManage.step, Option.map_eq_some'] at hstep
    obtain ⟨⟨um1, r⟩, hres, rfl⟩ := hstep
    exact coherent_receiveItem h hres

/-- Every state reached from a coherent one by handler calls is coherent. -/
theorem coherent_run {cfg : Config} {ops : List Op} {um um2 : UserManage} (h : um.Coherent)
    (hrun : um.run cfg ops = some um2) : um2.Coherent := by
  induction ops generalizing um with
  | nil =>
    simp only [UserManage.run, Option.some.injEq] at hrun
    subst hrun
    exact h
  | cons op rest ih =>
    simp only [UserManage.run, Option.bind_eq_some] at hrun
    obtain ⟨um1, hstep, hrest⟩ := hrun
    exact ih (coherent_step h hstep) hrest

/-- In every state reached by handler calls from the start over a store whose
account ADMINISTRATOR is not a customer, the balance that getUserInfo reports for a
logged-in customer is the persisted one. -/
theorem getUserInfo_customer_balance {cfg : Config} {ops : List Op} {db : Database} {um : UserManage}
    {token : Token} {info : UserInfo} (hdb : db.AdminTyped)
    (hrun : (UserManage.start db).run cfg ops = some um)
    (hinfo : um.getUserInfo token = some ("", some info)) (hty : info.type = CUSTOMER) :
    um.db.queryBalanceByName info.username = some info.balance := by
  have hco := coherent_run (coherent_start hdb) hrun
  unfold UserManage.getUserInfo at hinfo
  simp only at hinfo
  split at hinfo
  · simp at hinfo
  · split at hinfo
    · cases hinfo
    · rename_i usr husr
      simp only [Option.some.injEq, Prod.mk.injEq, true_and] at hinfo
      subst hinfo
      exact (hco.2 _ usr husr hty).2

/-- C24, at the failing input. From the start over `sampleStore 8 100` the
administrator logs in, then alice logs in and sends an item at cost 8. The
credential of the administrator still verifies, getUserInfo reports the balance 8
for it, and the persisted balance of ADMINISTRATOR is 16. When the administrator
then adds 1 to the balance, 9 is persisted: the 8 of the send are lost. -/
theorem administrator_balance_stale_after_send :
    ((UserManage.start (sampleStore 8 100)).run sampleConfig adminThenSendOps).map
        (fun um => (um.verify (tokenOf "ADMINISTRATOR"),
          (um.getUserInfo (tokenOf "ADMINISTRATOR")).map (fun r => r.2.map UserInfo.balance),
          um.db.queryBalanceByName "ADMINISTRATOR")) =
      some ("ADMINISTRATOR", some (some 8), some 16) ∧
    ((UserManage.start (sampleStore 8 100)).run sampleConfig
        (adminThenSendOps ++ [.addBalance (tokenOf "ADMINISTRATOR") 1])).map
        (fun um => ((um.getUserInfo (tokenOf "ADMINISTRATOR")).map (fun r => r.2.map UserInfo.balance),
          um.db.queryBalanceByName "ADMINISTRATOR")) =
      some (some (some 9), some 9) := by
  decide

/-! ## sendItem: the sign of the amount -/

/-- C4, at the failing input. From a first start, bob registers, and alice, carol and
dave register, log in and bring their balance to 1000000000; alice and carol each
send 124999999 fragile items at unit price 8, cost 999999992. The persisted balances
are then 1999999984 for ADMINISTRATOR, 8 for alice and for carol, 1000000000 for dave
and 0 for bob, in sum 3000000000. The same request by dave, a verified customer,
succeeds with cost 999999992 and takes his balance to 8, its former value minus the
cost; the balance of ADMINISTRATOR becomes -1294967320, not 1999999984 + 999999992,
and the sum of the balances becomes -1294967296. -/
theorem sendItem_credit_wraps :
    ((UserManage.start freshStore).run sampleConfig twoLargeSendsOps).map
        (fun um => (um.verify (tokenOf "dave"), (userMapValue um.userMap "dave").map User.type,
          um.db.user.map (fun r => (r.username, r.balance)), (um.db.user.map UserRow.balance).sum)) =
      some ("dave", some CUSTOMER,
        [("ADMINISTRATOR", 1999999984), ("bob", 0), ("alice", 8), ("carol", 8), ("dave", 1000000000)],
        3000000000) ∧
    (((UserManage.start freshStore).run sampleConfig twoLargeSendsOps).bind fun um =>
        (UserManage.sendItem sampleConfig sampleClock um (tokenOf "dave") largeSend).map
          fun r => (r.2, r.1.db.user.map (fun r => (r.username, r.balance)),
            (r.1.db.user.map UserRow.balance).sum)) =
      some (.number 999999992,
        [("ADMINISTRATOR", -1294967320), ("bob", 0), ("alice", 8), ("carol", 8), ("dave", 8)],
        -1294967296) ∧
    (-1294967320 : Int) ≠ 1999999984 + 999999992 := by
  decide

end Courier
